import Mathlib

/-!
# Verification of the route-fitting and narration pipeline

A shallow embedding, in Lean 4, of the core route planning pipeline of the
running-tracker web application:

* `lib/googleMapsRouting.ts` — point reduction (`smoothShapePoints`,
  `dedupeSequentialPoints`), closed-shape detection (`isClosedShape`),
  request chunking (`buildPointChunks`) and the chunked route resolver
  (`getShapeRoute`);
* the map component (`findScaleForTargetDistance`, `scalePointsAround`,
  `shiftShapeToLand`, `scaleShapeIfNeeded`, `samplePointsEvery30Meters`);
* `components/Directions.tsx` — instruction normalisation
  (`normalizeInstruction`, `toMeters`), step merging
  (`mergeConsecutiveSteps`) and the proximity based auto-advance /
  arrival-narration state machine.

Modelling conventions:

* JavaScript numbers are modelled as rationals (`ℚ`); all arithmetic in the
  embedded code is exact, so `ℚ` is a faithful carrier for the algebraic and
  control-flow structure of the algorithms (no overflow, no rounding occurs
  in the modelled expressions).
* `calculateHaversineDistance` (the Haversine formula) is transcendental and
  has no exact rational value, so every function that consumes it is
  parametrised by an abstract distance function `d : LatLng → LatLng → ℚ`;
  the source always instantiates this parameter with the Haversine distance.
  Theorems quantify over `d` (so they hold for the Haversine instance in
  particular), and concrete executions instantiate `d` with `dFlat`, an
  exact equirectangular surrogate (≈ meters per degree at small extents).
* The external Directions provider is modelled as a function from a chunk
  request to `Except Unit` of a response; `Except.error` models a rejected
  promise (a thrown provider error), and an `Option Provider` argument
  models `isGoogleMapsLoaded()` (`none` = Google Maps not loaded).
* Provider calls performed by a resolver run are logged in request order, so
  "issues exactly n requests" is the length of that log.
-/

/-- Geographic point, `{lat, lng}` of `src/running-tracker-web/src/types`.
JS float coordinates are modelled as exact rationals. -/
structure LatLng where
  lat : ℚ
  lng : ℚ
deriving DecidableEq, Repr, Inhabited

/-- An abstract point-to-point distance function standing for
`calculateHaversineDistance` (which is transcendental, hence not exactly
representable over `ℚ`). -/
abbrev DistFn := LatLng → LatLng → ℚ

/-- Exact computable surrogate distance used to instantiate `DistFn` in
concrete executions: a scaled L1 distance in degrees (100000 ≈ meters per
degree), matching the qualitative behaviour of the Haversine distance for
the small extents the app works at (nonnegative, zero iff equal on each
axis, homogeneous under scaling). -/
def dFlat : DistFn := fun a b => 100000 * (|a.lat - b.lat| + |a.lng - b.lng|)

namespace GoogleMapsRouting

/-- `smoothShapePoints` interior loop (`googleMapsRouting.ts` 60–71): walk
the remaining interior points, keeping a point iff its distance from the
last *kept* point (`prev`) is at least `minD`, or fewer than 3 points are
kept so far (`count` = number of kept points so far, starting at 1 for the
always-kept first point). -/
def smoothGo (d : DistFn) (minD : ℚ) : LatLng → ℕ → List LatLng → List LatLng
  | _, _, [] => []
  | prev, count, p :: rest =>
    if minD ≤ d prev p ∨ count < 3 then p :: smoothGo d minD p (count + 1) rest
    else smoothGo d minD prev count rest

/-- "Keep every other point" fallback of `smoothShapePoints`
(`googleMapsRouting.ts` 79): `points.filter((_, i) => i % 2 === 0 || i ===
points.length - 1)`. -/
def everyOther (points : List LatLng) : List LatLng :=
  ((points.enum.filter fun ia => ia.1 % 2 = 0 ∨ ia.1 = points.length - 1).map Prod.snd)

/-- `smoothShapePoints` (`googleMapsRouting.ts` 55–84): keep first point,
keep interior points far enough from the last kept point (or while fewer
than 3 points are kept), always keep the last point; if that leaves fewer
than 3 points of an input of ≥ 3, fall back to every other point. -/
def smoothShapePoints (d : DistFn) (points : List LatLng) (minDistanceMeters : ℚ := 20) :
    List LatLng :=
  match points with
  | [] => points
  | [_] => points
  | [_, _] => points
  | p0 :: p1 :: p2 :: rest =>
    let tl := p1 :: p2 :: rest
    let smoothed := (p0 :: smoothGo d minDistanceMeters p0 1 tl.dropLast) ++
      [tl.getLast (by simp)]
    if smoothed.length < 3 ∧ 3 ≤ points.length then everyOther points else smoothed

/-- `dedupeSequentialPoints` interior loop (`googleMapsRouting.ts` 112–117):
keep an interior point iff it is at least `minD` away from the last kept
point. -/
def dedupeGo (d : DistFn) (minD : ℚ) : LatLng → List LatLng → List LatLng
  | _, [] => []
  | prev, p :: rest =>
    if minD ≤ d prev p then p :: dedupeGo d minD p rest
    else dedupeGo d minD prev rest

/-- `dedupeSequentialPoints` (`googleMapsRouting.ts` 109–121): keep the
first point, drop interior points closer than `minD` to the last kept
point, always append the last point. -/
def dedupeSequentialPoints (d : DistFn) (points : List LatLng) (minDistanceMeters : ℚ := 8) :
    List LatLng :=
  match points with
  | [] => points
  | [p] => [p]
  | p0 :: p1 :: rest =>
    (p0 :: dedupeGo d minDistanceMeters p0 (p1 :: rest).dropLast) ++
      [(p1 :: rest).getLast (by simp)]

/-- `isClosedShape` (`googleMapsRouting.ts` 103–106): a shape with at least
3 points whose last point is within `thresholdMeters` of its first. -/
def isClosedShape (d : DistFn) (points : List LatLng) (thresholdMeters : ℚ := 25) : Bool :=
  match points with
  | p0 :: p1 :: p2 :: rest =>
    decide (d p0 ((p0 :: p1 :: p2 :: rest).getLast (by simp)) ≤ thresholdMeters)
  | _ => false

/-- The `while` loop of `buildPointChunks` (`googleMapsRouting.ts`
132–137): starting at index `i`, emit the slice `points[i ..= lastIndex]`
with `lastIndex = min (i + maxPts - 1) (points.length - 1)` and continue
from `lastIndex` (so consecutive chunks overlap in exactly that point).
`maxPts ≥ 2` (guaranteed by the clamp at the call site) makes the loop
advance. -/
def chunkLoop (points : List LatLng) (maxPts : ℕ) (hm : 2 ≤ maxPts) (i : ℕ) :
    List (List LatLng) :=
  if h : i < points.length - 1 then
    ((points.drop i).take (min (i + maxPts - 1) (points.length - 1) + 1 - i)) ::
      chunkLoop points maxPts hm (min (i + maxPts - 1) (points.length - 1))
  else []
termination_by points.length - i
decreasing_by omega

/-- `buildPointChunks` (`googleMapsRouting.ts` 125–139): split an ordered
point list into overlapping chunks of at most
`clamp(maxWaypointsPerRequest + 2, 2, 25)` points, consecutive chunks
sharing exactly one joint point. -/
def buildPointChunks (points : List LatLng) (maxWaypointsPerRequest : ℕ := 20) :
    List (List LatLng) :=
  if points.length ≤ 2 then [points]
  else chunkLoop points (max 2 (min 25 (maxWaypointsPerRequest + 2))) (le_max_left 2 _) 0

/-- One chunked Directions request (`googleMapsRouting.ts` 242–248):
origin, ordered non-stopover interior waypoints, destination; travel mode
WALKING and `optimizeWaypoints: false` are fixed and carry no information,
so they are omitted from the model. -/
structure ChunkReq where
  origin : LatLng
  waypoints : List LatLng
  destination : LatLng
deriving DecidableEq, Repr

/-- One leg of a provider response (`leg.distance?.value`,
`leg.duration?.value`). -/
structure RouteLeg where
  distance : ℚ
  duration : ℚ
deriving DecidableEq, Repr

/-- A provider response: legs and the `overview_path`. -/
structure ChunkResp where
  legs : List RouteLeg
  overviewPath : List LatLng
deriving DecidableEq, Repr

/-- The Directions provider: `Except.error` models a rejected promise
(thrown provider error caught by the per-chunk `try/catch`). -/
def Provider := ChunkReq → Except Unit ChunkResp

/-- `RouteResult` (`googleMapsRouting.ts` 10–14). -/
structure RouteResult where
  distance : ℚ
  duration : ℚ
  points : List LatLng
deriving DecidableEq, Repr

/-- Accumulator of the chunk loop of `getShapeRoute`: running totals, the
stitched path, and the log of issued provider requests (in order). -/
structure StitchAcc where
  totalDistance : ℚ
  totalDuration : ℚ
  stitchedPoints : List LatLng
  requests : List ChunkReq
deriving DecidableEq, Repr

/-- `segment.slice(1, -1)`: the interior waypoints of a chunk. -/
def chunkInterior (segment : List LatLng) : List LatLng := (segment.drop 1).dropLast

/-- The request built for one chunk: `segment[0]` as origin, interior
points as waypoints, `segment[segment.length - 1]` as destination (the
chunk loop only builds requests for segments of length ≥ 2, so the
`Inhabited` defaults of `headI`/`getLastI` are never consulted). -/
def mkChunkReq (segment : List LatLng) : ChunkReq :=
  ⟨segment.headI, chunkInterior segment, segment.getLastI⟩

/-- The chunk loop of `getShapeRoute` (`googleMapsRouting.ts` 230–274):
for each chunk (skipping degenerate ones), issue one request; on success
accumulate the legs' distance/duration and append the overview path
(dropping its first point for every chunk after the first); on failure or
an empty path, fall back to a straight segment from the chunk's origin to
its destination (for a failure also estimating duration at 1.4 m/s), and
continue with the remaining chunks. -/
def stitchLoop (provider : Provider) (d : DistFn) :
    List (List LatLng) → ℕ → StitchAcc → StitchAcc
  | [], _, acc => acc
  | segment :: rest, c, acc =>
    if segment.length < 2 then stitchLoop provider d rest (c + 1) acc
    else
      let req := mkChunkReq segment
      let origin := req.origin
      let destination := req.destination
      let acc1 := { acc with requests := acc.requests ++ [req] }
      match provider req with
      | .ok resp =>
        let acc2 := { acc1 with
          totalDistance := acc1.totalDistance + (resp.legs.map RouteLeg.distance).sum,
          totalDuration := acc1.totalDuration + (resp.legs.map RouteLeg.duration).sum }
        if 0 < resp.overviewPath.length then
          stitchLoop provider d rest (c + 1)
            { acc2 with stitchedPoints := acc2.stitchedPoints ++
                (if c = 0 then resp.overviewPath else resp.overviewPath.drop 1) }
        else
          stitchLoop provider d rest (c + 1)
            { acc2 with stitchedPoints := acc2.stitchedPoints ++
                (if c = 0 then [origin] else []) ++ [destination] }
      | .error _ =>
        stitchLoop provider d rest (c + 1)
          { acc1 with
            stitchedPoints := acc1.stitchedPoints ++
              (if c = 0 then [origin] else []) ++ [destination],
            totalDistance := acc1.totalDistance + d origin destination,
            totalDuration := acc1.totalDuration + d origin destination / 1.4 }

/-- Sum of straight-line distances between consecutive points
(`googleMapsRouting.ts` 210–213). -/
def pairwiseDistSum (d : DistFn) : List LatLng → ℚ
  | [] => 0
  | [_] => 0
  | a :: b :: rest => d a b + pairwiseDistSum d (b :: rest)

/-- Closed-shape adjustment of `getShapeRoute` (`googleMapsRouting.ts`
202–206): if the deduped shape is closed (last within 25 m of first) but
not exactly closed, replace the last point by an exact copy of the first
(`[...orderedPoints.slice(0, -1), orderedPoints[0]]`). -/
def autoClosed (d : DistFn) (orderedPoints0 : List LatLng) : List LatLng :=
  match orderedPoints0 with
  | [] => []
  | q0 :: qtl =>
    if isClosedShape d (q0 :: qtl) 25 ∧ 0 < d q0 ((q0 :: qtl).getLast (by simp)) then
      (q0 :: qtl).dropLast ++ [q0]
    else q0 :: qtl

/-- `getShapeRoute` (`googleMapsRouting.ts` 195–281), parametrised by the
(possibly absent) provider and the distance function; returns the
`RouteResult` (`none` only for fewer than 2 input points) paired with the
log of issued provider requests. -/
def getShapeRoute (provider? : Option Provider) (d : DistFn) (points : List LatLng) :
    Option RouteResult × List ChunkReq :=
  if points.length < 2 then (none, [])
  else
    let orderedPoints := autoClosed d (dedupeSequentialPoints d points 8)
    match provider? with
    | none =>
      (some ⟨pairwiseDistSum d orderedPoints, pairwiseDistSum d orderedPoints / 1.4,
        orderedPoints⟩, [])
    | some provider =>
      let chunks := buildPointChunks orderedPoints 20
      let acc := stitchLoop provider d chunks 0 ⟨0, 0, [], []⟩
      (some ⟨acc.totalDistance, acc.totalDuration,
        if 1 < acc.stitchedPoints.length then acc.stitchedPoints else orderedPoints⟩,
        acc.requests)

end GoogleMapsRouting

namespace GoogleMapsRouting

theorem smoothGo_sublist (d : DistFn) (minD : ℚ) :
    ∀ (prev : LatLng) (count : ℕ) (l : List LatLng), (smoothGo d minD prev count l).Sublist l := by
  intro prev count l
  induction l generalizing prev count with
  | nil => simp [smoothGo]
  | cons p rest ih =>
    rw [smoothGo]
    split
    · exact (ih p (count + 1)).cons₂ p
    · exact (ih prev count).cons p

theorem dedupeGo_sublist (d : DistFn) (minD : ℚ) :
    ∀ (prev : LatLng) (l : List LatLng), (dedupeGo d minD prev l).Sublist l := by
  intro prev l
  induction l generalizing prev with
  | nil => simp [dedupeGo]
  | cons p rest ih =>
    rw [dedupeGo]
    split
    · exact (ih p).cons₂ p
    · exact (ih prev).cons p

/-- The filtered-enumeration fallback is a sublist of the original list. -/
theorem enumFrom_filter_map_snd_sublist (p : ℕ × LatLng → Bool) :
    ∀ (n : ℕ) (l : List LatLng), (((l.enumFrom n).filter p).map Prod.snd).Sublist l := by
  intro n l
  induction l generalizing n with
  | nil => simp
  | cons a rest ih =>
    rw [List.enumFrom]
    rw [List.filter]
    cases h : p (n, a) with
    | true => simpa using (ih (n + 1)).cons₂ a
    | false => simpa using (ih (n + 1)).cons a

theorem everyOther_sublist (points : List LatLng) : (everyOther points).Sublist points := by
  unfold everyOther
  have := enumFrom_filter_map_snd_sublist
    (fun ia => decide (ia.1 % 2 = 0 ∨ ia.1 = points.length - 1)) 0 points
  simpa [List.enum] using this

theorem dedupeSequentialPoints_sublist (d : DistFn) (minD : ℚ) (points : List LatLng) :
    (dedupeSequentialPoints d points minD).Sublist points := by
  match points with
  | [] => simp [dedupeSequentialPoints]
  | [p] => simp [dedupeSequentialPoints]
  | p0 :: p1 :: rest =>
    rw [dedupeSequentialPoints, List.cons_append]
    conv_rhs => rw [show p1 :: rest =
      (p1 :: rest).dropLast ++ [(p1 :: rest).getLast (by simp)] from
      (List.dropLast_append_getLast (by simp)).symm]
    exact ((dedupeGo_sublist d minD p0 _).append (List.Sublist.refl _)).cons₂ p0

theorem smoothShapePoints_sublist (d : DistFn) (minD : ℚ) (points : List LatLng) :
    (smoothShapePoints d points minD).Sublist points := by
  match points with
  | [] => simp [smoothShapePoints]
  | [p] => simp [smoothShapePoints]
  | [p, q] => simp [smoothShapePoints]
  | p0 :: p1 :: p2 :: rest =>
    rw [smoothShapePoints]
    split
    · exact everyOther_sublist _
    · rw [List.cons_append]
      conv_rhs => rw [show p1 :: p2 :: rest =
        (p1 :: p2 :: rest).dropLast ++ [(p1 :: p2 :: rest).getLast (by simp)] from
        (List.dropLast_append_getLast (by simp)).symm]
      exact ((smoothGo_sublist d minD p0 1 _).append (List.Sublist.refl _)).cons₂ p0

theorem everyOther_head? (p0 : LatLng) (tl : List LatLng) :
    (everyOther (p0 :: tl)).head? = some p0 := by
  rw [everyOther, List.enum]
  rw [List.enumFrom]
  rw [List.filter]
  simp

theorem everyOther_getLast? (points : List LatLng) (h : points ≠ []) :
    (everyOther points).getLast? = points.getLast? := by
  obtain ⟨l, a, rfl⟩ := (List.eq_nil_or_concat' points).resolve_left h
  rw [everyOther, List.enum, List.enumFrom_append, List.filter_append, List.map_append]
  rw [List.enumFrom, List.filter_cons]
  simp [List.getLast?_concat]

theorem dedupeSequentialPoints_endpoints (d : DistFn) (minD : ℚ) (points : List LatLng)
    (h : 2 ≤ points.length) :
    (dedupeSequentialPoints d points minD).head? = points.head? ∧
    (dedupeSequentialPoints d points minD).getLast? = points.getLast? := by
  match points with
  | [] => simp at h
  | [p] => simp at h
  | p0 :: p1 :: rest =>
    rw [dedupeSequentialPoints]
    constructor
    · simp
    · rw [List.getLast?_concat, List.getLast?_cons_cons,
        List.getLast?_eq_getLast_of_ne_nil (by simp)]

theorem smoothShapePoints_endpoints (d : DistFn) (minD : ℚ) (points : List LatLng)
    (h : 2 ≤ points.length) :
    (smoothShapePoints d points minD).head? = points.head? ∧
    (smoothShapePoints d points minD).getLast? = points.getLast? := by
  match points with
  | [] => simp at h
  | [p] => simp [smoothShapePoints]
  | [p, q] => simp [smoothShapePoints]
  | p0 :: p1 :: p2 :: rest =>
    rw [smoothShapePoints]
    split
    · exact ⟨everyOther_head? _ _, everyOther_getLast? _ (by simp)⟩
    · constructor
      · simp
      · rw [List.getLast?_concat, List.getLast?_cons_cons, List.getLast?_cons_cons,
          List.getLast?_eq_getLast_of_ne_nil (by simp)]
        simp [List.getLast_cons]

end GoogleMapsRouting

/-- C9: each point-reduction operation (`dedupeSequentialPoints` and
`smoothShapePoints`, at any threshold and for any distance function, in
particular the Haversine one) returns an order-preserving subsequence of
its input, and for every input with at least 2 points the output keeps the
input's first point first and the input's last point last. -/
theorem C9_point_reduction_order_and_endpoints (d : DistFn) (minD₁ minD₂ : ℚ)
    (points : List LatLng) (h : 2 ≤ points.length) :
    (GoogleMapsRouting.dedupeSequentialPoints d points minD₁).Sublist points ∧
    (GoogleMapsRouting.smoothShapePoints d points minD₂).Sublist points ∧
    (GoogleMapsRouting.dedupeSequentialPoints d points minD₁).head? = points.head? ∧
    (GoogleMapsRouting.dedupeSequentialPoints d points minD₁).getLast? = points.getLast? ∧
    (GoogleMapsRouting.smoothShapePoints d points minD₂).head? = points.head? ∧
    (GoogleMapsRouting.smoothShapePoints d points minD₂).getLast? = points.getLast? := by
  obtain ⟨h1, h2⟩ := GoogleMapsRouting.dedupeSequentialPoints_endpoints d minD₁ points h
  obtain ⟨h3, h4⟩ := GoogleMapsRouting.smoothShapePoints_endpoints d minD₂ points h
  exact ⟨GoogleMapsRouting.dedupeSequentialPoints_sublist d minD₁ points,
    GoogleMapsRouting.smoothShapePoints_sublist d minD₂ points, h1, h2, h3, h4⟩

namespace GoogleMapsRouting

theorem getShapeRoute_none_eq (d : DistFn) (points : List LatLng) (h : ¬points.length < 2) :
    getShapeRoute none d points =
      (some ⟨pairwiseDistSum d (autoClosed d (dedupeSequentialPoints d points 8)),
        pairwiseDistSum d (autoClosed d (dedupeSequentialPoints d points 8)) / 1.4,
        autoClosed d (dedupeSequentialPoints d points 8)⟩, []) := by
  rw [getShapeRoute, if_neg h]

theorem autoClosed_of_closed (d : DistFn) (q0 : LatLng) (qtl : List LatLng)
    (hcl : isClosedShape d (q0 :: qtl) 25 = true)
    (hpos : 0 < d q0 ((q0 :: qtl).getLast (by simp))) :
    autoClosed d (q0 :: qtl) = (q0 :: qtl).dropLast ++ [q0] := by
  rw [autoClosed]
  rw [if_pos ⟨by exact_mod_cast hcl, hpos⟩]

end GoogleMapsRouting

/-- C10 (implicit behaviour): if the deduped input has at least 3 points
and its endpoints are within 25 m of each other but not at zero distance,
`getShapeRoute` silently closes the loop: in the provider-unavailable
fallback, the returned path starts and ends with an exact copy of the
deduped sequence's first point. -/
theorem C10_silent_auto_closing (d : DistFn) (points : List LatLng) (f l : LatLng)
    (h3 : 3 ≤ (GoogleMapsRouting.dedupeSequentialPoints d points 8).length)
    (hf : (GoogleMapsRouting.dedupeSequentialPoints d points 8).head? = some f)
    (hl : (GoogleMapsRouting.dedupeSequentialPoints d points 8).getLast? = some l)
    (h0 : 0 < d f l) (h25 : d f l ≤ 25) :
    ∃ r, (GoogleMapsRouting.getShapeRoute none d points).1 = some r ∧
      r.points.head? = some f ∧ r.points.getLast? = some f := by
  have hsub := GoogleMapsRouting.dedupeSequentialPoints_sublist d 8 points
  have hlen : ¬points.length < 2 := by
    have := hsub.length_le
    omega
  rw [GoogleMapsRouting.getShapeRoute_none_eq d points hlen]
  rcases hdd : GoogleMapsRouting.dedupeSequentialPoints d points 8 with _ | ⟨q0, qtl⟩
  · rw [hdd] at h3; simp at h3
  · rw [hdd] at hf hl h3
    have hq0 : q0 = f := by simpa using hf
    subst hq0
    have hne : q0 :: qtl ≠ [] := by simp
    have hlast : (q0 :: qtl).getLast hne = l := by
      rw [List.getLast?_eq_getLast_of_ne_nil hne] at hl
      simpa using hl
    have hcl : GoogleMapsRouting.isClosedShape d (q0 :: qtl) 25 = true := by
      match qtl, h3 with
      | q1 :: q2 :: tl, _ =>
        rw [GoogleMapsRouting.isClosedShape]
        refine decide_eq_true ?_
        rw [show (q0 :: q1 :: q2 :: tl).getLast (by simp) = l from hlast]
        exact h25
    have hac := GoogleMapsRouting.autoClosed_of_closed d q0 qtl hcl
      (by rw [show (q0 :: qtl).getLast (by simp) = l from hlast]; exact h0)
    refine ⟨_, rfl, ?_, ?_⟩
    · simp only [hdd, hac]
      match qtl, h3 with
      | q1 :: q2 :: tl, _ => simp
    · simp only [hdd, hac, List.getLast?_concat]

/-- Witness for C10: a 4-point open shape whose endpoints are 1 cm apart
(under `dFlat`); the fallback path is exactly closed. -/
theorem C10_witness :
    3 ≤ (GoogleMapsRouting.dedupeSequentialPoints dFlat
      [⟨0, 0⟩, ⟨0, 1/1000⟩, ⟨1/1000, 1/1000⟩, ⟨1/10000000, 0⟩] 8).length ∧
    ∃ r, (GoogleMapsRouting.getShapeRoute none dFlat
      [⟨0, 0⟩, ⟨0, 1/1000⟩, ⟨1/1000, 1/1000⟩, ⟨1/10000000, 0⟩]).1 = some r ∧
      r.points.head? = some ⟨0, 0⟩ ∧ r.points.getLast? = some ⟨0, 0⟩ := by
  have hdd : GoogleMapsRouting.dedupeSequentialPoints dFlat
      [⟨0, 0⟩, ⟨0, 1/1000⟩, ⟨1/1000, 1/1000⟩, ⟨1/10000000, 0⟩] 8 =
      [⟨0, 0⟩, ⟨0, 1/1000⟩, ⟨1/1000, 1/1000⟩, ⟨1/10000000, 0⟩] := by
    rw [GoogleMapsRouting.dedupeSequentialPoints]
    norm_num [GoogleMapsRouting.dedupeGo, dFlat, abs_of_nonneg, abs_of_nonpos]
  refine ⟨by rw [hdd]; norm_num, ?_⟩
  exact C10_silent_auto_closing dFlat _ ⟨0, 0⟩ ⟨1/10000000, 0⟩
    (by rw [hdd]; norm_num) (by rw [hdd]; rfl) (by rw [hdd]; rfl)
    (by norm_num [dFlat, abs_of_nonneg, abs_of_nonpos])
    (by norm_num [dFlat, abs_of_nonneg, abs_of_nonpos])

namespace GoogleMapsRouting

theorem dedupeGo_replicate (d : DistFn) (minD : ℚ) (p : LatLng) (h : d p p < minD) :
    ∀ n, dedupeGo d minD p (List.replicate n p) = [] := by
  intro n
  induction n with
  | zero => simp [dedupeGo]
  | succ n ih =>
    rw [List.replicate_succ, dedupeGo, if_neg (not_le.2 h)]
    exact ih

/-- A provider that answers every request with a two-point path from the
request's origin to its destination and no legs. -/
def echoProvider : Provider := fun req => .ok ⟨[], [req.origin, req.destination]⟩

theorem dedupeGo_chain (d : DistFn) (minD : ℚ) :
    ∀ (prev : LatLng) (l : List LatLng), List.Chain (fun a b => minD ≤ d a b) prev l →
      dedupeGo d minD prev l = l := by
  intro prev l h
  induction l generalizing prev with
  | nil => rfl
  | cons p rest ih =>
    rw [List.chain_cons] at h
    rw [dedupeGo, if_pos h.1, ih p h.2]

/-- If all consecutive points are at least `minD` apart, dedupe keeps the
whole list. -/
theorem dedupeSequentialPoints_of_spaced (d : DistFn) (minD : ℚ) (points : List LatLng)
    (h : points.Chain' (fun a b => minD ≤ d a b)) :
    dedupeSequentialPoints d points minD = points := by
  match points with
  | [] => rfl
  | [p] => rfl
  | p0 :: p1 :: rest =>
    rw [dedupeSequentialPoints]
    have hpre : (p0 :: (p1 :: rest).dropLast).Chain' (fun a b => minD ≤ d a b) :=
      h.prefix ((List.cons_prefix_cons).2 ⟨rfl, List.dropLast_prefix (p1 :: rest)⟩)
    rw [dedupeGo_chain d minD p0 _ hpre]
    rw [List.cons_append, List.dropLast_append_getLast (by simp)]

theorem autoClosed_of_open (d : DistFn) (points : List LatLng)
    (h : isClosedShape d points 25 = false) : autoClosed d points = points := by
  match points with
  | [] => rfl
  | q0 :: qtl =>
    rw [autoClosed, if_neg]
    intro hc
    rw [h] at hc
    simp at hc

/-- For a 50-point list, `buildPointChunks` with interior-waypoint limit 20
produces exactly the three overlapping slices `[0..21]`, `[21..42]`,
`[42..49]`. -/
theorem buildPointChunks_length50 (points : List LatLng) (h : points.length = 50) :
    buildPointChunks points 20 =
      [points.take 22, (points.drop 21).take 22, points.drop 42] := by
  rw [buildPointChunks, if_neg (by omega)]
  rw [chunkLoop, dif_pos (by omega)]
  rw [chunkLoop, dif_pos (by omega)]
  rw [chunkLoop, dif_pos (by omega)]
  rw [chunkLoop, dif_neg (by omega)]
  rw [h]
  norm_num
  omega

theorem mkChunkReq_origin (segment : List LatLng) :
    (mkChunkReq segment).origin = segment.headI := rfl

theorem mkChunkReq_destination (segment : List LatLng) :
    (mkChunkReq segment).destination = segment.getLastI := rfl

theorem stitchLoop_nil (provider : Provider) (d : DistFn) (c : ℕ) (acc : StitchAcc) :
    stitchLoop provider d [] c acc = acc := rfl

theorem stitchLoop_cons_ok (provider : Provider) (d : DistFn) (segment : List LatLng)
    (rest : List (List LatLng)) (c : ℕ) (acc : StitchAcc) (resp : ChunkResp)
    (h2 : ¬segment.length < 2) (hp : provider (mkChunkReq segment) = .ok resp)
    (hpos : 0 < resp.overviewPath.length) :
    stitchLoop provider d (segment :: rest) c acc =
      stitchLoop provider d rest (c + 1)
        ⟨acc.totalDistance + (resp.legs.map RouteLeg.distance).sum,
         acc.totalDuration + (resp.legs.map RouteLeg.duration).sum,
         acc.stitchedPoints ++
           (if c = 0 then resp.overviewPath else resp.overviewPath.drop 1),
         acc.requests ++ [mkChunkReq segment]⟩ := by
  simp only [stitchLoop, if_neg h2, hp]
  rw [if_pos hpos]

theorem stitchLoop_cons_error (provider : Provider) (d : DistFn) (segment : List LatLng)
    (rest : List (List LatLng)) (c : ℕ) (acc : StitchAcc)
    (h2 : ¬segment.length < 2) (hp : provider (mkChunkReq segment) = .error ()) :
    stitchLoop provider d (segment :: rest) c acc =
      stitchLoop provider d rest (c + 1)
        ⟨acc.totalDistance + d segment.headI segment.getLastI,
         acc.totalDuration + d segment.headI segment.getLastI / 1.4,
         acc.stitchedPoints ++ (if c = 0 then [segment.headI] else []) ++
           [segment.getLastI],
         acc.requests ++ [mkChunkReq segment]⟩ := by
  simp only [stitchLoop, if_neg h2, hp]
  rfl

theorem headI_eq_of_head? {α} [Inhabited α] {l : List α} {a : α} (h : l.head? = some a) :
    l.headI = a := by
  cases l with
  | nil => simp at h
  | cons x t => simp_all [List.headI]

theorem getLastI_eq_of_getLast? {α} [Inhabited α] {l : List α} {a : α}
    (h : l.getLast? = some a) : l.getLastI = a := by
  rw [List.getLastI_eq_getLast?, h]

theorem take_succ_getLast? {α} (l : List α) (n : ℕ) (h : n < l.length) :
    (l.take (n + 1)).getLast? = l[n]? := by
  rw [List.take_succ, List.getElem?_eq_getElem h, Option.toList_some]
  exact List.getLast?_concat _

theorem take_head? {α} (l : List α) (n : ℕ) (hn : 0 < n) :
    (l.take n).head? = l.head? := by
  cases l with
  | nil => simp
  | cons a t =>
    match n, hn with
    | m + 1, _ => simp

theorem drop_head? {α} (l : List α) (n : ℕ) (h : n < l.length) :
    (l.drop n).head? = l[n]? := by
  rw [List.drop_eq_getElem_cons h]
  simp [List.getElem?_eq_getElem h]

/-- The requests one chunk gives rise to (none for degenerate chunks). -/
def chunkReqs (segment : List LatLng) : List ChunkReq :=
  if segment.length < 2 then [] else [mkChunkReq segment]

/-- The distance one chunk contributes to the resolver totals: the sum of
the provider legs on success, the straight-line origin-to-destination
distance on failure. -/
def chunkDist (provider : Provider) (d : DistFn) (segment : List LatLng) : ℚ :=
  if segment.length < 2 then 0
  else
    match provider (mkChunkReq segment) with
    | .ok resp => (resp.legs.map RouteLeg.distance).sum
    | .error _ => d segment.headI segment.getLastI

/-- The duration one chunk contributes: provider legs on success, the
straight-line distance at 1.4 m/s on failure. -/
def chunkDur (provider : Provider) (d : DistFn) (segment : List LatLng) : ℚ :=
  if segment.length < 2 then 0
  else
    match provider (mkChunkReq segment) with
    | .ok resp => (resp.legs.map RouteLeg.duration).sum
    | .error _ => d segment.headI segment.getLastI / 1.4

/-- The path segment one chunk contributes at loop index `c`: the overview
path (first point dropped for non-initial chunks) on success, and the
straight origin→destination segment on failure or an empty path. -/
def chunkPath (provider : Provider) (segment : List LatLng) (c : ℕ) : List LatLng :=
  if segment.length < 2 then []
  else
    match provider (mkChunkReq segment) with
    | .ok resp =>
      if 0 < resp.overviewPath.length then
        (if c = 0 then resp.overviewPath else resp.overviewPath.drop 1)
      else (if c = 0 then [segment.headI] else []) ++ [segment.getLastI]
    | .error _ => (if c = 0 then [segment.headI] else []) ++ [segment.getLastI]

/-- Closed form of the chunk loop: the totals are the sums of per-chunk
contributions, the stitched path is the concatenation of per-chunk path
segments, and the request log lists one request per non-degenerate chunk,
in input order — in particular a failing chunk never aborts the loop. -/
theorem stitchLoop_spec (provider : Provider) (d : DistFn) :
    ∀ (chunks : List (List LatLng)) (c : ℕ) (acc : StitchAcc),
    stitchLoop provider d chunks c acc =
      ⟨acc.totalDistance + (chunks.map (chunkDist provider d)).sum,
       acc.totalDuration + (chunks.map (chunkDur provider d)).sum,
       acc.stitchedPoints ++
         ((chunks.enumFrom c).map fun ic => chunkPath provider ic.2 ic.1).flatten,
       acc.requests ++ (chunks.map chunkReqs).flatten⟩ := by
  intro chunks
  induction chunks with
  | nil => intro c acc; simp [stitchLoop]
  | cons seg rest ih =>
    intro c acc
    by_cases h2 : seg.length < 2
    · simp only [stitchLoop, if_pos h2]
      rw [ih]
      simp [chunkDist, chunkDur, chunkPath, chunkReqs, if_pos h2, List.enumFrom]
    · cases hp : provider (mkChunkReq seg) with
      | ok resp =>
        by_cases hpos : 0 < resp.overviewPath.length
        · rw [stitchLoop_cons_ok provider d seg rest c acc resp h2 hp hpos, ih]
          simp [chunkDist, chunkDur, chunkPath, chunkReqs, if_neg h2, hp, hpos,
            List.enumFrom, add_assoc, List.append_assoc]
        · simp only [stitchLoop, if_neg h2, hp]
          rw [if_neg hpos, ih]
          simp [chunkDist, chunkDur, chunkPath, chunkReqs, mkChunkReq_origin,
            mkChunkReq_destination, if_neg h2, hp, hpos,
            List.enumFrom, add_assoc, List.append_assoc]
      | error e =>
        obtain ⟨⟩ := e
        rw [stitchLoop_cons_error provider d seg rest c acc h2 hp, ih]
        simp [chunkDist, chunkDur, chunkPath, chunkReqs, mkChunkReq_origin,
          mkChunkReq_destination, if_neg h2, hp,
          List.enumFrom, add_assoc, List.append_assoc]

end GoogleMapsRouting

/-- Counterexample to C2 as stated: an ordered input of 50 points is not
always split into 3 chunks with 3 requests — the resolver first dedupes the
input, so 50 coincident points collapse to 2 points, one chunk, and a
single directions request. -/
theorem C2_counterexample :
    (GoogleMapsRouting.getShapeRoute (some GoogleMapsRouting.echoProvider) dFlat
      (List.replicate 50 ⟨0, 0⟩)).2.length = 1 ∧
    (GoogleMapsRouting.getShapeRoute (some GoogleMapsRouting.echoProvider) dFlat
      (List.replicate 50 ⟨0, 0⟩)).2.length ≠ 3 := by
  have hd0 : dFlat ⟨0, 0⟩ ⟨0, 0⟩ < 8 := by norm_num [dFlat]
  have hdrop : ((⟨0, 0⟩ : LatLng) :: List.replicate 48 (⟨0, 0⟩ : LatLng)).dropLast =
      List.replicate 48 (⟨0, 0⟩ : LatLng) := by
    rw [show (⟨0, 0⟩ : LatLng) :: List.replicate 48 (⟨0, 0⟩ : LatLng) =
      List.replicate 49 (⟨0, 0⟩ : LatLng) from rfl]
    rw [List.replicate_succ' 48]
    exact List.dropLast_concat ..
  have hlast : ∀ h, ((⟨0, 0⟩ : LatLng) :: List.replicate 48 (⟨0, 0⟩ : LatLng)).getLast h =
      ⟨0, 0⟩ := by
    intro h
    rw [List.getLast_congr h (by simp)
      (show (⟨0, 0⟩ : LatLng) :: List.replicate 48 (⟨0, 0⟩ : LatLng) =
        List.replicate 48 (⟨0, 0⟩ : LatLng) ++ [⟨0, 0⟩] by
        rw [← List.replicate_succ' 48]; rfl)]
    exact List.getLast_append_singleton _
  have hdd : GoogleMapsRouting.dedupeSequentialPoints dFlat
      (List.replicate 50 (⟨0, 0⟩ : LatLng)) 8 = [⟨0, 0⟩, ⟨0, 0⟩] := by
    rw [show List.replicate 50 (⟨0, 0⟩ : LatLng) =
      (⟨0, 0⟩ : LatLng) :: (⟨0, 0⟩ : LatLng) :: List.replicate 48 (⟨0, 0⟩ : LatLng) from rfl]
    rw [GoogleMapsRouting.dedupeSequentialPoints]
    rw [hdrop, hlast, GoogleMapsRouting.dedupeGo_replicate dFlat 8 _ hd0]
    rfl
  have hac : GoogleMapsRouting.autoClosed dFlat [(⟨0, 0⟩ : LatLng), ⟨0, 0⟩] =
      [(⟨0, 0⟩ : LatLng), ⟨0, 0⟩] := by
    rw [GoogleMapsRouting.autoClosed]
    rw [if_neg]
    simp [GoogleMapsRouting.isClosedShape]
  have hst : (GoogleMapsRouting.stitchLoop GoogleMapsRouting.echoProvider dFlat
      [[(⟨0, 0⟩ : LatLng), ⟨0, 0⟩]] 0 ⟨0, 0, [], []⟩).requests =
      [⟨⟨0, 0⟩, [], ⟨0, 0⟩⟩] := rfl
  have hreq : (GoogleMapsRouting.getShapeRoute (some GoogleMapsRouting.echoProvider) dFlat
      (List.replicate 50 ⟨0, 0⟩)).2 = [⟨⟨0, 0⟩, [], ⟨0, 0⟩⟩] := by
    rw [GoogleMapsRouting.getShapeRoute, if_neg (by simp), hdd, hac]
    exact hst
  rw [hreq]
  exact ⟨rfl, by simp⟩
theorem C9_witness :
    2 ≤ ([⟨0, 0⟩, ⟨0, 1/1000⟩, ⟨0, 2/1000⟩] : List LatLng).length ∧
    (GoogleMapsRouting.dedupeSequentialPoints dFlat
      [⟨0, 0⟩, ⟨0, 1/1000⟩, ⟨0, 2/1000⟩] 8).getLast? =
      ([⟨0, 0⟩, ⟨0, 1/1000⟩, ⟨0, 2/1000⟩] : List LatLng).getLast? := by
  refine ⟨by decide, ?_⟩
  exact (C9_point_reduction_order_and_endpoints dFlat 8 20 _ (by decide)).2.2.2.1

namespace GoogleMapsRouting

theorem chunkPath_ok (provider : Provider) (segment : List LatLng) (c : ℕ)
    (resp : ChunkResp) (h2 : ¬segment.length < 2)
    (hp : provider (mkChunkReq segment) = .ok resp)
    (hpos : 0 < resp.overviewPath.length) :
    chunkPath provider segment c =
      if c = 0 then resp.overviewPath else resp.overviewPath.drop 1 := by
  rw [chunkPath, if_neg h2, hp]
  show (if 0 < resp.overviewPath.length then
      (if c = 0 then resp.overviewPath else resp.overviewPath.drop 1)
    else (if c = 0 then [segment.headI] else []) ++ [segment.getLastI]) =
    (if c = 0 then resp.overviewPath else resp.overviewPath.drop 1)
  rw [if_pos hpos]

theorem chunkPath_error (provider : Provider) (segment : List LatLng) (c : ℕ)
    (h2 : ¬segment.length < 2)
    (hp : provider (mkChunkReq segment) = .error ()) :
    chunkPath provider segment c =
      (if c = 0 then [segment.headI] else []) ++ [segment.getLastI] := by
  rw [chunkPath, if_neg h2, hp]

theorem chunkDist_error (provider : Provider) (d : DistFn) (segment : List LatLng)
    (h2 : ¬segment.length < 2)
    (hp : provider (mkChunkReq segment) = .error ()) :
    chunkDist provider d segment = d segment.headI segment.getLastI := by
  rw [chunkDist, if_neg h2, hp]

theorem chunkDur_error (provider : Provider) (d : DistFn) (segment : List LatLng)
    (h2 : ¬segment.length < 2)
    (hp : provider (mkChunkReq segment) = .error ()) :
    chunkDur provider d segment = d segment.headI segment.getLastI / 1.4 := by
  rw [chunkDur, if_neg h2, hp]

theorem isClosedShape_eq_false (d : DistFn) (points : List LatLng)
    (h3 : 3 ≤ points.length)
    (hopen : ∀ f l : LatLng, points.head? = some f → points.getLast? = some l →
      ¬d f l ≤ 25) :
    isClosedShape d points 25 = false := by
  match points, h3 with
  | p0 :: p1 :: p2 :: rest, _ =>
    rw [isClosedShape]
    exact decide_eq_false (hopen p0 _ rfl (List.getLast?_eq_getLast_of_ne_nil (by simp)))

end GoogleMapsRouting

/-- C2 (amended): for an ordered input of 50 points whose consecutive
points are at least 8 m apart (so sequential dedupe keeps all of them) and
whose endpoints are more than 25 m apart (so the shape is not auto-closed),
the Route Resolver splits the input into exactly ceil(48/20) = 3
overlapping chunks — the slices [0..21], [21..42], [42..49], each of at
most 22 points, consecutive chunks sharing exactly their joint point — and
issues exactly 3 directions requests; if the provider answers each request
with a path from its origin to its destination of ≥ 2 points with no
duplicated adjacent points, the stitched output path has no duplicated
adjacent points (in particular none at the chunk joins). The original
claim, quantified over all 50-point inputs, is false
(`C2_counterexample`). -/
theorem C2_amended_chunked_resolution (d : DistFn) (provider : GoogleMapsRouting.Provider)
    (points : List LatLng) (h50 : points.length = 50)
    (hspaced : points.Chain' fun a b => 8 ≤ d a b)
    (hopen : ∀ f l : LatLng, points.head? = some f → points.getLast? = some l →
      ¬d f l ≤ 25)
    (hprov : ∀ req : GoogleMapsRouting.ChunkReq, ∃ resp,
      provider req = .ok resp ∧
      resp.overviewPath.head? = some req.origin ∧
      resp.overviewPath.getLast? = some req.destination ∧
      2 ≤ resp.overviewPath.length ∧
      resp.overviewPath.Chain' (· ≠ ·)) :
    GoogleMapsRouting.buildPointChunks points 20 =
      [points.take 22, (points.drop 21).take 22, points.drop 42] ∧
    (∀ ch ∈ GoogleMapsRouting.buildPointChunks points 20, ch.length ≤ 22) ∧
    (GoogleMapsRouting.buildPointChunks points 20).Chain'
      (fun c₁ c₂ => c₁.getLast? = c₂.head?) ∧
    (GoogleMapsRouting.getShapeRoute (some provider) d points).2.length = 3 ∧
    (∃ r, (GoogleMapsRouting.getShapeRoute (some provider) d points).1 = some r ∧
      r.points.Chain' (· ≠ ·)) := by
  have hchunks := GoogleMapsRouting.buildPointChunks_length50 points h50
  have h21 : 21 < points.length := by omega
  have h42 : 42 < points.length := by omega
  have h2142 : 21 < (points.drop 21).length := by simp; omega
  obtain ⟨y1, hy1⟩ : ∃ a, points[21]? = some a := ⟨_, List.getElem?_eq_getElem h21⟩
  obtain ⟨y2, hy2⟩ : ∃ a, points[42]? = some a := ⟨_, List.getElem?_eq_getElem h42⟩
  have hc0last : (points.take 22).getLast? = some y1 := by
    rw [show (22 : ℕ) = 21 + 1 from rfl, GoogleMapsRouting.take_succ_getLast? _ _ h21, hy1]
  have hc1head : ((points.drop 21).take 22).head? = some y1 := by
    rw [GoogleMapsRouting.take_head? _ _ (by norm_num),
      GoogleMapsRouting.drop_head? _ _ h21, hy1]
  have hc1last : ((points.drop 21).take 22).getLast? = some y2 := by
    rw [show (22 : ℕ) = 21 + 1 from rfl, GoogleMapsRouting.take_succ_getLast? _ _ h2142,
      List.getElem?_drop, show 21 + 21 = 42 from rfl, hy2]
  have hc2head : (points.drop 42).head? = some y2 := by
    rw [GoogleMapsRouting.drop_head? _ _ h42, hy2]
  have hl0 : (points.take 22).length = 22 := by rw [List.length_take]; omega
  have hl1 : ((points.drop 21).take 22).length = 22 := by
    rw [List.length_take, List.length_drop]; omega
  have hl2 : (points.drop 42).length = 8 := by rw [List.length_drop]; omega
  have hdd := GoogleMapsRouting.dedupeSequentialPoints_of_spaced d 8 points hspaced
  have hac := GoogleMapsRouting.autoClosed_of_open d points
    (GoogleMapsRouting.isClosedShape_eq_false d points (by omega) hopen)
  obtain ⟨resp0, hp0, hh0, hg0, hn0, hch0⟩ :=
    hprov (GoogleMapsRouting.mkChunkReq (points.take 22))
  obtain ⟨resp1, hp1, hh1, hg1, hn1, hch1⟩ :=
    hprov (GoogleMapsRouting.mkChunkReq ((points.drop 21).take 22))
  obtain ⟨resp2, hp2, hh2, hg2, hn2, hch2⟩ :=
    hprov (GoogleMapsRouting.mkChunkReq (points.drop 42))
  have hkey : GoogleMapsRouting.getShapeRoute (some provider) d points =
      (some ⟨(GoogleMapsRouting.stitchLoop provider d
          [points.take 22, (points.drop 21).take 22, points.drop 42] 0
          ⟨0, 0, [], []⟩).totalDistance,
        (GoogleMapsRouting.stitchLoop provider d
          [points.take 22, (points.drop 21).take 22, points.drop 42] 0
          ⟨0, 0, [], []⟩).totalDuration,
        if 1 < (GoogleMapsRouting.stitchLoop provider d
          [points.take 22, (points.drop 21).take 22, points.drop 42] 0
          ⟨0, 0, [], []⟩).stitchedPoints.length then
          (GoogleMapsRouting.stitchLoop provider d
            [points.take 22, (points.drop 21).take 22, points.drop 42] 0
            ⟨0, 0, [], []⟩).stitchedPoints
        else points⟩,
       (GoogleMapsRouting.stitchLoop provider d
         [points.take 22, (points.drop 21).take 22, points.drop 42] 0
         ⟨0, 0, [], []⟩).requests) := by
    rw [GoogleMapsRouting.getShapeRoute, if_neg (by omega), hdd, hac]
    simp only [hchunks]
  have hstitch := GoogleMapsRouting.stitchLoop_spec provider d
    [points.take 22, (points.drop 21).take 22, points.drop 42] 0 ⟨0, 0, [], []⟩
  have hpath0 : GoogleMapsRouting.chunkPath provider (points.take 22) 0 =
      resp0.overviewPath := by
    rw [GoogleMapsRouting.chunkPath_ok provider _ 0 resp0 (by omega) hp0 (by omega)]
    rw [if_pos rfl]
  have hpath1 : GoogleMapsRouting.chunkPath provider ((points.drop 21).take 22) 1 =
      resp1.overviewPath.drop 1 := by
    rw [GoogleMapsRouting.chunkPath_ok provider _ 1 resp1 (by omega) hp1 (by omega)]
    rw [if_neg (by omega)]
  have hpath2 : GoogleMapsRouting.chunkPath provider (points.drop 42) 2 =
      resp2.overviewPath.drop 1 := by
    rw [GoogleMapsRouting.chunkPath_ok provider _ 2 resp2 (by omega) hp2 (by omega)]
    rw [if_neg (by omega)]
  have hreqs : (GoogleMapsRouting.stitchLoop provider d
      [points.take 22, (points.drop 21).take 22, points.drop 42] 0
      ⟨0, 0, [], []⟩).requests =
      [GoogleMapsRouting.mkChunkReq (points.take 22),
       GoogleMapsRouting.mkChunkReq ((points.drop 21).take 22),
       GoogleMapsRouting.mkChunkReq (points.drop 42)] := by
    rw [hstitch]
    simp [GoogleMapsRouting.chunkReqs, hl0, hl1, hl2]
  have hpts : (GoogleMapsRouting.stitchLoop provider d
      [points.take 22, (points.drop 21).take 22, points.drop 42] 0
      ⟨0, 0, [], []⟩).stitchedPoints =
      resp0.overviewPath ++ (resp1.overviewPath.drop 1 ++ resp2.overviewPath.drop 1) := by
    rw [hstitch]
    simp [List.enumFrom, hpath0, hpath1, hpath2]
  -- boundary elements of the three paths
  obtain ⟨b1, t1, hbt1⟩ : ∃ a t, resp1.overviewPath.drop 1 = a :: t := by
    match resp1.overviewPath, hn1 with
    | _ :: x :: t, _ => exact ⟨x, t, rfl⟩
  obtain ⟨b2, t2, hbt2⟩ : ∃ a t, resp2.overviewPath.drop 1 = a :: t := by
    match resp2.overviewPath, hn2 with
    | _ :: x :: t, _ => exact ⟨x, t, rfl⟩
  have hdl1 : (resp1.overviewPath.drop 1).getLast? = resp1.overviewPath.getLast? := by
    match resp1.overviewPath, hn1 with
    | a :: x :: t, _ => simp [List.getLast?_cons_cons]
  have hne01 : y1 ≠ b1 := by
    match resp1.overviewPath, hn1, hh1, hbt1, hch1 with
    | a :: x :: t, _, hh1, hbt1, hch1 =>
      have hax : a ≠ x := (List.chain'_cons.1 hch1).1
      have ha : a = y1 := by
        have h1 := GoogleMapsRouting.headI_eq_of_head? hh1
        simp only [List.headI] at h1
        rw [h1, GoogleMapsRouting.mkChunkReq_origin]
        exact GoogleMapsRouting.headI_eq_of_head? hc1head
      have hx : x = b1 := by
        have : (x :: t) = b1 :: t1 := by simpa using hbt1
        exact (List.cons.injEq .. ▸ this).1
      rw [← ha, ← hx]
      exact hax
  have hne12 : ∀ x ∈ (resp1.overviewPath.drop 1).getLast?,
      ∀ y ∈ (resp2.overviewPath.drop 1).head?, x ≠ y := by
    intro x hx y hy
    rw [hdl1, hg1, GoogleMapsRouting.mkChunkReq_destination] at hx
    have hx0 : x = ((points.drop 21).take 22).getLastI :=
      (Option.mem_some_iff.1 hx).symm
    rw [hbt2] at hy
    have hy0 : y = b2 := by simpa using hy.symm
    have hy2' : ((points.drop 21).take 22).getLastI = y2 :=
      GoogleMapsRouting.getLastI_eq_of_getLast? hc1last
    match resp2.overviewPath, hn2, hh2, hbt2, hch2 with
    | a :: x2 :: t, _, hh2, hbt2, hch2 =>
      have hax : a ≠ x2 := (List.chain'_cons.1 hch2).1
      have ha : a = y2 := by
        have h1 := GoogleMapsRouting.headI_eq_of_head? hh2
        simp only [List.headI] at h1
        rw [h1, GoogleMapsRouting.mkChunkReq_origin]
        exact GoogleMapsRouting.headI_eq_of_head? hc2head
      have hxb : x2 = b2 := by
        have : (x2 :: t) = b2 :: t2 := by simpa using hbt2
        exact (List.cons.injEq .. ▸ this).1
      rw [hx0, hy2', hy0, ← ha, ← hxb]
      exact hax
  refine ⟨hchunks, ?_, ?_, ?_, ?_⟩
  · intro ch hch
    rw [hchunks] at hch
    simp only [List.mem_cons, List.not_mem_nil, or_false] at hch
    rcases hch with rfl | rfl | rfl
    · omega
    · omega
    · omega
  · rw [hchunks]
    exact List.chain'_cons.2 ⟨hc0last.trans hc1head.symm,
      List.chain'_cons.2 ⟨hc1last.trans hc2head.symm, List.chain'_singleton _⟩⟩
  · rw [hkey]
    rw [hreqs]
    rfl
  · rw [hkey]
    refine ⟨_, rfl, ?_⟩
    rw [if_pos ?side]
    case side =>
      rw [hpts]
      simp only [List.length_append]
      omega
    rw [hpts]
    refine List.chain'_append.2 ⟨hch0, ?_, ?_⟩
    · exact List.chain'_append.2 ⟨hch1.drop 1, hch2.drop 1, hne12⟩
    · intro x hx y hy
      rw [hg0, GoogleMapsRouting.mkChunkReq_destination] at hx
      have hx0 : x = (points.take 22).getLastI := (Option.mem_some_iff.1 hx).symm
      have hgl : (points.take 22).getLastI = y1 :=
        GoogleMapsRouting.getLastI_eq_of_getLast? hc0last
      have hy0 : y = b1 := by
        rw [hbt1] at hy
        simpa using hy.symm
      rw [hx0, hgl, hy0]
      exact hne01

namespace GoogleMapsRouting

/-- The path returned by `saneProvider`: origin to destination, inserting a
distinct midpoint when they coincide, so the path always has ≥ 2 points,
no duplicated adjacent points, and the right endpoints. -/
def saneProviderPath (req : ChunkReq) : List LatLng :=
  if req.origin = req.destination
  then [req.origin, ⟨req.origin.lat + 1, req.origin.lng⟩, req.destination]
  else [req.origin, req.destination]

/-- A provider answering every request with `saneProviderPath`. -/
def saneProvider : Provider := fun req => .ok ⟨[], saneProviderPath req⟩

theorem saneProvider_spec : ∀ req : ChunkReq, ∃ resp,
    saneProvider req = .ok resp ∧
    resp.overviewPath.head? = some req.origin ∧
    resp.overviewPath.getLast? = some req.destination ∧
    2 ≤ resp.overviewPath.length ∧
    resp.overviewPath.Chain' (· ≠ ·) := by
  intro req
  refine ⟨⟨[], saneProviderPath req⟩, rfl, ?_, ?_, ?_, ?_⟩ <;>
    rw [saneProviderPath] <;> split
  · simp
  · simp
  · simp
  · simp
  · simp
  · simp
  · rename_i h
    have h1 : req.origin ≠ (⟨req.origin.lat + 1, req.origin.lng⟩ : LatLng) := by
      intro hc
      have := congrArg LatLng.lat hc
      simp at this
    have h2 : (⟨req.origin.lat + 1, req.origin.lng⟩ : LatLng) ≠ req.destination := by
      intro hc
      have := congrArg LatLng.lat hc
      rw [← h] at this
      simp at this
    exact List.chain'_cons.2 ⟨h1, List.chain'_cons.2 ⟨h2, List.chain'_singleton _⟩⟩
  · rename_i h
    exact List.chain'_cons.2 ⟨h, List.chain'_singleton _⟩

end GoogleMapsRouting

/-- Witness for C2 (amended) at a concrete input: 50 points 100 m apart in
a straight line (under `dFlat`) and a well-behaved provider; the resolver
issues exactly 3 requests. -/
theorem C2_witness :
    ((List.range 50).map fun i : ℕ => (⟨0, (i : ℚ)/1000⟩ : LatLng)).length = 50 ∧
    (GoogleMapsRouting.getShapeRoute (some GoogleMapsRouting.saneProvider) dFlat
      ((List.range 50).map fun i : ℕ => (⟨0, (i : ℚ)/1000⟩ : LatLng))).2.length = 3 := by
  have hlen : ((List.range 50).map fun i : ℕ => (⟨0, (i : ℚ)/1000⟩ : LatLng)).length = 50 := by
    simp
  have hhead : ((List.range 50).map fun i : ℕ => (⟨0, (i : ℚ)/1000⟩ : LatLng)).head? =
      some ⟨0, 0⟩ := by
    rw [show (50 : ℕ) = 49 + 1 from rfl, List.range_succ_eq_map]
    simp
  have hlast : ((List.range 50).map fun i : ℕ => (⟨0, (i : ℚ)/1000⟩ : LatLng)).getLast? =
      some ⟨0, 49/1000⟩ := by
    rw [show (50 : ℕ) = 49 + 1 from rfl, List.range_succ, List.map_append]
    simp [List.getLast?_concat]
  have hspaced : ((List.range 50).map fun i : ℕ => (⟨0, (i : ℚ)/1000⟩ : LatLng)).Chain'
      fun a b => 8 ≤ dFlat a b := by
    rw [List.chain'_map]
    rw [show (50 : ℕ) = 49 + 1 from rfl, List.chain'_range_succ]
    intro m hm
    have : dFlat ⟨0, (m : ℚ)/1000⟩ ⟨0, ((m : ℚ) + 1)/1000⟩ = 100 := by
      rw [dFlat]
      rw [show |(0 : ℚ) - 0| = 0 by norm_num]
      rw [show ((m : ℚ))/1000 - ((m : ℚ) + 1)/1000 = -(1/1000) by ring]
      rw [abs_neg, abs_of_nonneg (by norm_num)]
      norm_num
    rw [show ((m.succ : ℕ) : ℚ) = (m : ℚ) + 1 by push_cast; ring]
    rw [this]
    norm_num
  have hopen : ∀ f l : LatLng,
      ((List.range 50).map fun i : ℕ => (⟨0, (i : ℚ)/1000⟩ : LatLng)).head? = some f →
      ((List.range 50).map fun i : ℕ => (⟨0, (i : ℚ)/1000⟩ : LatLng)).getLast? = some l →
      ¬dFlat f l ≤ 25 := by
    intro f l hf hl
    rw [hhead] at hf
    rw [hlast] at hl
    obtain rfl : f = ⟨0, 0⟩ := by injection hf with h; exact h.symm
    obtain rfl : l = ⟨0, 49/1000⟩ := by injection hl with h; exact h.symm
    rw [dFlat]
    rw [show |(0 : ℚ) - 0| = 0 by norm_num]
    rw [show |(0 : ℚ) - 49/1000| = 49/1000 by
      rw [abs_sub_comm, abs_of_nonneg] <;> norm_num]
    norm_num
  exact ⟨hlen, (C2_amended_chunked_resolution dFlat GoogleMapsRouting.saneProvider
    _ hlen hspaced hopen GoogleMapsRouting.saneProvider_spec).2.2.2.1⟩

namespace GoogleMapsRouting

theorem getShapeRoute_some_eq (provider : Provider) (d : DistFn) (points : List LatLng)
    (h : ¬points.length < 2) :
    getShapeRoute (some provider) d points =
      (some ⟨(stitchLoop provider d
          (buildPointChunks (autoClosed d (dedupeSequentialPoints d points 8)) 20) 0
          ⟨0, 0, [], []⟩).totalDistance,
        (stitchLoop provider d
          (buildPointChunks (autoClosed d (dedupeSequentialPoints d points 8)) 20) 0
          ⟨0, 0, [], []⟩).totalDuration,
        if 1 < (stitchLoop provider d
            (buildPointChunks (autoClosed d (dedupeSequentialPoints d points 8)) 20) 0
            ⟨0, 0, [], []⟩).stitchedPoints.length then
          (stitchLoop provider d
            (buildPointChunks (autoClosed d (dedupeSequentialPoints d points 8)) 20) 0
            ⟨0, 0, [], []⟩).stitchedPoints
        else autoClosed d (dedupeSequentialPoints d points 8)⟩,
       (stitchLoop provider d
         (buildPointChunks (autoClosed d (dedupeSequentialPoints d points 8)) 20) 0
         ⟨0, 0, [], []⟩).requests) := by
  rw [getShapeRoute, if_neg h]

/-- A provider whose every request fails. -/
def failProvider : Provider := fun _ => .error ()

end GoogleMapsRouting

/-- C5: a failing chunk request never aborts the resolution and never
raises: the resolver still returns a result (for ≥ 2 input points), its
totals are the sums of per-chunk contributions over all chunks (so
processing continues after a failure), and a failing chunk contributes
exactly the straight geodesic origin→destination segment, its distance, and
an estimated duration of distance / 1.4 m/s. -/
theorem C5_chunk_failure_straight_fallback (provider : GoogleMapsRouting.Provider)
    (d : DistFn) (points : List LatLng) (h2 : 2 ≤ points.length)
    (seg : List LatLng) (h2s : ¬seg.length < 2)
    (hfail : provider (GoogleMapsRouting.mkChunkReq seg) = .error ()) :
    (∃ r, (GoogleMapsRouting.getShapeRoute (some provider) d points).1 = some r ∧
      r.distance = ((GoogleMapsRouting.buildPointChunks
          (GoogleMapsRouting.autoClosed d
            (GoogleMapsRouting.dedupeSequentialPoints d points 8)) 20).map
        (GoogleMapsRouting.chunkDist provider d)).sum ∧
      r.duration = ((GoogleMapsRouting.buildPointChunks
          (GoogleMapsRouting.autoClosed d
            (GoogleMapsRouting.dedupeSequentialPoints d points 8)) 20).map
        (GoogleMapsRouting.chunkDur provider d)).sum) ∧
    GoogleMapsRouting.chunkDist provider d seg = d seg.headI seg.getLastI ∧
    GoogleMapsRouting.chunkDur provider d seg = d seg.headI seg.getLastI / 1.4 ∧
    (∀ c, GoogleMapsRouting.chunkPath provider seg c =
      (if c = 0 then [seg.headI] else []) ++ [seg.getLastI]) := by
  have hroute := GoogleMapsRouting.getShapeRoute_some_eq provider d points (by omega)
  have hspec := GoogleMapsRouting.stitchLoop_spec provider d
    (GoogleMapsRouting.buildPointChunks
      (GoogleMapsRouting.autoClosed d
        (GoogleMapsRouting.dedupeSequentialPoints d points 8)) 20) 0 ⟨0, 0, [], []⟩
  refine ⟨⟨_, by rw [hroute], ?_, ?_⟩,
    GoogleMapsRouting.chunkDist_error provider d seg h2s hfail,
    GoogleMapsRouting.chunkDur_error provider d seg h2s hfail,
    fun c => GoogleMapsRouting.chunkPath_error provider seg c h2s hfail⟩
  · rw [hspec]
    simp
  · rw [hspec]
    simp

/-- Witness for C5: a 2-point shape with a provider that rejects every
request; the resolution still returns a result whose distance is the
straight-line distance. -/
theorem C5_witness :
    (2 ≤ ([⟨0, 0⟩, ⟨0, 1/1000⟩] : List LatLng).length) ∧
    GoogleMapsRouting.failProvider
      (GoogleMapsRouting.mkChunkReq [⟨0, 0⟩, ⟨0, 1/1000⟩]) = .error () ∧
    GoogleMapsRouting.chunkDist GoogleMapsRouting.failProvider dFlat
      [⟨0, 0⟩, ⟨0, 1/1000⟩] =
      dFlat ([(⟨0, 0⟩ : LatLng), ⟨0, 1/1000⟩]).headI
        ([(⟨0, 0⟩ : LatLng), ⟨0, 1/1000⟩]).getLastI := by
  refine ⟨by norm_num, rfl, ?_⟩
  exact (C5_chunk_failure_straight_fallback GoogleMapsRouting.failProvider dFlat
    [⟨0, 0⟩, ⟨0, 1/1000⟩] (by norm_num) [⟨0, 0⟩, ⟨0, 1/1000⟩] (by norm_num) rfl).2.1

namespace MapComponent

/-- The sampling loop of `samplePointsEvery30Meters` (map component,
1097–1106): walk the points in draw order, accumulating segment distance;
when the accumulator reaches 30 m, emit the current input point and reset
the accumulator to 0. -/
def sampleGo (d : DistFn) (currentDistance : ℚ) (prev : LatLng) :
    List LatLng → List LatLng
  | [] => []
  | p :: rest =>
    if 30 ≤ currentDistance + d prev p then p :: sampleGo d 0 p rest
    else sampleGo d (currentDistance + d prev p) p rest

/-- `samplePointsEvery30Meters` (map component, 1089–1115): start with the
first point, emit points at every 30 m of accumulated distance, and force
the final point unless the last emitted point already equals it (the
source compares with `!==`; object identity is modelled as structural
equality, which agrees here because the loop only ever pushes the input's
own points). -/
def samplePointsEvery30Meters (d : DistFn) (points : List LatLng) : List LatLng :=
  match points with
  | [] => points
  | [_] => points
  | p0 :: p1 :: rest =>
    if (p0 :: sampleGo d 0 p0 (p1 :: rest)).getLast (by simp) ≠
        (p1 :: rest).getLast (by simp) then
      (p0 :: sampleGo d 0 p0 (p1 :: rest)) ++ [(p1 :: rest).getLast (by simp)]
    else p0 :: sampleGo d 0 p0 (p1 :: rest)

theorem sampleGo_chain (d : DistFn) :
    ∀ (prev : LatLng) (l : List LatLng), List.Chain (fun a b => d a b = 30) prev l →
      sampleGo d 0 prev l = l := by
  intro prev l h
  induction l generalizing prev with
  | nil => rfl
  | cons p rest ih =>
    rw [List.chain_cons] at h
    rw [sampleGo, if_pos (by rw [h.1]; norm_num), ih p h.2]

/-- If consecutive points are exactly 30 m apart, sampling keeps the whole
list. -/
theorem samplePointsEvery30Meters_of_exact (d : DistFn) (points : List LatLng)
    (h : points.Chain' fun a b => d a b = 30) :
    samplePointsEvery30Meters d points = points := by
  match points with
  | [] => rfl
  | [p] => rfl
  | p0 :: p1 :: rest =>
    have hs : sampleGo d 0 p0 (p1 :: rest) = p1 :: rest :=
      sampleGo_chain d p0 (p1 :: rest) h
    rw [samplePointsEvery30Meters]
    split
    · rename_i hcond
      exfalso
      apply hcond
      rw [List.getLast_congr _ (by simp)
        (show p0 :: sampleGo d 0 p0 (p1 :: rest) = p0 :: p1 :: rest by rw [hs])]
      exact List.getLast_cons (by simp)
    · rw [hs]

end MapComponent

/-- Counterexample to C6 as stated: an input polyline whose cumulative
distance is exactly 3 × 30 m does not always sample to 4 points — a
two-point polyline 90 m long samples to its own 2 points (the loop emits
input points when the accumulator crosses the interval; it does not emit
interpolated interval crossings). -/
theorem C6_counterexample :
    GoogleMapsRouting.pairwiseDistSum dFlat [⟨0, 0⟩, ⟨0, 9/10000⟩] = 3 * 30 ∧
    (MapComponent.samplePointsEvery30Meters dFlat [⟨0, 0⟩, ⟨0, 9/10000⟩]).length = 2 ∧
    (MapComponent.samplePointsEvery30Meters dFlat [⟨0, 0⟩, ⟨0, 9/10000⟩]).length ≠ 4 := by
  have hd : dFlat ⟨0, 0⟩ ⟨0, 9/10000⟩ = 90 := by
    rw [dFlat]
    rw [show |(0 : ℚ) - 0| = 0 by norm_num]
    rw [show |(0 : ℚ) - 9/10000| = 9/10000 by
      rw [abs_sub_comm, abs_of_nonneg] <;> norm_num]
    norm_num
  have hsg : MapComponent.sampleGo dFlat 0 ⟨0, 0⟩ [⟨0, 9/10000⟩] = [⟨0, 9/10000⟩] := by
    rw [MapComponent.sampleGo, if_pos (by rw [hd]; norm_num)]
    rw [MapComponent.sampleGo]
  have hsample : MapComponent.samplePointsEvery30Meters dFlat [⟨0, 0⟩, ⟨0, 9/10000⟩] =
      [⟨0, 0⟩, ⟨0, 9/10000⟩] := by
    rw [MapComponent.samplePointsEvery30Meters]
    split
    · rename_i hcond
      exfalso
      apply hcond
      rw [List.getLast_congr _ (by simp)
        (show (⟨0, 0⟩ : LatLng) :: MapComponent.sampleGo dFlat 0 ⟨0, 0⟩ [⟨0, 9/10000⟩] =
          [⟨0, 0⟩, ⟨0, 9/10000⟩] by rw [hsg])]
      rfl
    · rw [hsg]
  refine ⟨?_, ?_, ?_⟩
  · rw [GoogleMapsRouting.pairwiseDistSum, GoogleMapsRouting.pairwiseDistSum, hd]
    norm_num
  · rw [hsample]
    rfl
  · rw [hsample]
    norm_num

/-- C6 (amended): for an input of exactly 4 points spaced at exactly the
30 m interval (cumulative distance 3 × 30 m), fixed-interval resampling
outputs exactly 4 points — the start plus the 3 interval crossings, the
last deduplicated against the forced final point. The original claim over
*every* polyline of cumulative length 3 × 30 m is false
(`C6_counterexample`). -/
theorem C6_amended_exact_interval_sampling (d : DistFn) (points : List LatLng)
    (h4 : points.length = 4)
    (hch : points.Chain' fun a b => d a b = 30) :
    MapComponent.samplePointsEvery30Meters d points = points ∧
    (MapComponent.samplePointsEvery30Meters d points).length = 4 := by
  have h := MapComponent.samplePointsEvery30Meters_of_exact d points hch
  exact ⟨h, by rw [h, h4]⟩

/-- Witness for C6 (amended): 4 points spaced 30 m under `dFlat`. -/
theorem C6_witness :
    ([⟨0, 0⟩, ⟨0, 3/10000⟩, ⟨0, 6/10000⟩, ⟨0, 9/10000⟩] : List LatLng).length = 4 ∧
    (MapComponent.samplePointsEvery30Meters dFlat
      [⟨0, 0⟩, ⟨0, 3/10000⟩, ⟨0, 6/10000⟩, ⟨0, 9/10000⟩]).length = 4 := by
  have hgap : ∀ a b : ℚ, b - a = 3/10000 → dFlat ⟨0, a⟩ ⟨0, b⟩ = 30 := by
    intro a b hab
    rw [dFlat]
    rw [show |(0 : ℚ) - 0| = 0 by norm_num]
    rw [show |a - b| = 3/10000 by
      rw [abs_sub_comm, hab, abs_of_nonneg] ; norm_num]
    norm_num
  refine ⟨rfl, (C6_amended_exact_interval_sampling dFlat
    [⟨0, 0⟩, ⟨0, 3/10000⟩, ⟨0, 6/10000⟩, ⟨0, 9/10000⟩] rfl ?_).2⟩
  exact List.chain'_cons.2 ⟨hgap _ _ (by norm_num),
    List.chain'_cons.2 ⟨hgap _ _ (by norm_num),
      List.chain'_cons.2 ⟨hgap _ _ (by norm_num), List.chain'_singleton _⟩⟩⟩

namespace MapComponent

/-- `isLikelyInOcean` (map component, 756–761): a point more than 1000 m
from the user's location is flagged as likely in the ocean. -/
def isLikelyInOcean (d : DistFn) (userLocation point : LatLng) : Bool :=
  decide (1000 < d point userLocation)

/-- `shiftShapeToLand` (map component, 764–792): if any point is flagged
as likely in the ocean, translate the whole shape by 30% of the vector
from the shape's centroid to the user location. -/
def shiftShapeToLand (d : DistFn) (userLocation : LatLng) (points : List LatLng) :
    List LatLng :=
  match points with
  | [] => points
  | p0 :: tl =>
    if ((p0 :: tl).filter (isLikelyInOcean d userLocation)).length = 0 then p0 :: tl
    else
      let pts := p0 :: tl
      let centerLat := (pts.map LatLng.lat).sum / pts.length
      let centerLng := (pts.map LatLng.lng).sum / pts.length
      let shiftLat := (userLocation.lat - centerLat) * 0.3
      let shiftLng := (userLocation.lng - centerLng) * 0.3
      pts.map fun p => ⟨p.lat + shiftLat, p.lng + shiftLng⟩

/-- All ordered pairs `(points[i], points[j])` with `i < j`, in the order
the double loop of `scaleShapeIfNeeded` (814–819) visits them. -/
def pairsList : List LatLng → List (LatLng × LatLng)
  | [] => []
  | p :: rest => (rest.map fun q => (p, q)) ++ pairsList rest

/-- The maximum pairwise distance of `scaleShapeIfNeeded` (812–819):
`maxDistance` starts at 0 and takes the max over all pairs. -/
def maxPairwiseDistance (d : DistFn) (points : List LatLng) : ℚ :=
  (pairsList points).foldl (fun m pq => max m (d pq.1 pq.2)) 0

/-- The scale-up branch of `scaleShapeIfNeeded` (798–838): scale every
point about the bounding-box center by `factor`. -/
def scaleAboutBBoxCenter (points : List LatLng) (factor : ℚ) : List LatLng :=
  match points with
  | [] => []
  | p0 :: tl =>
    let pts := p0 :: tl
    let minLat := (pts.map LatLng.lat).foldl min p0.lat
    let maxLat := (pts.map LatLng.lat).foldl max p0.lat
    let minLng := (pts.map LatLng.lng).foldl min p0.lng
    let maxLng := (pts.map LatLng.lng).foldl max p0.lng
    let centerLat := (minLat + maxLat) / 2
    let centerLng := (minLng + maxLng) / 2
    pts.map fun p =>
      ⟨centerLat + (p.lat - centerLat) * factor, centerLng + (p.lng - centerLng) * factor⟩

/-- `scaleShapeIfNeeded` (map component, 795–842): if the maximum pairwise
distance is below 50 m, scale the shape about its bounding-box center by
`50 / maxDistance`. -/
def scaleShapeIfNeeded (d : DistFn) (points : List LatLng) : List LatLng :=
  match points with
  | [] => points
  | [p] => [p]
  | p0 :: p1 :: rest =>
    if maxPairwiseDistance d (p0 :: p1 :: rest) < 50 then
      scaleAboutBBoxCenter (p0 :: p1 :: rest)
        (50 / maxPairwiseDistance d (p0 :: p1 :: rest))
    else p0 :: p1 :: rest

/-- The land-placement and minimum-size correction pipeline, in source
order (`getGoogleMapsRoutePolylines` steps 1–2, 1126–1129): shift to land,
then scale up if too small. -/
def correctionPipeline (d : DistFn) (userLocation : LatLng) (points : List LatLng) :
    List LatLng :=
  scaleShapeIfNeeded d (shiftShapeToLand d userLocation points)

theorem shiftShapeToLand_of_noOcean (d : DistFn) (userLocation : LatLng)
    (points : List LatLng)
    (h : ∀ p ∈ points, isLikelyInOcean d userLocation p = false) :
    shiftShapeToLand d userLocation points = points := by
  match points with
  | [] => rfl
  | p0 :: tl =>
    rw [shiftShapeToLand, if_pos]
    rw [List.length_eq_zero]
    rw [List.filter_eq_nil_iff]
    intro a ha
    rw [h a ha]
    simp

theorem scaleShapeIfNeeded_of_bigEnough (d : DistFn) (points : List LatLng)
    (h : 50 ≤ maxPairwiseDistance d points) :
    scaleShapeIfNeeded d points = points := by
  match points with
  | [] => rfl
  | [p] => rfl
  | p0 :: p1 :: rest =>
    rw [scaleShapeIfNeeded, if_neg (not_lt.2 h)]

end MapComponent

/-- Counterexample to C4 as stated: the shift-to-land + scale-up pipeline
is not idempotent. A small two-point shape far from the user is flagged
"likely in ocean" again after the first 30% pull toward the user, so the
second application shifts it again and the output differs point-for-point
(exactly, in exact arithmetic — not merely within floating tolerance). -/
theorem C4_counterexample :
    MapComponent.correctionPipeline dFlat ⟨0, 0⟩
      (MapComponent.correctionPipeline dFlat ⟨0, 0⟩ [⟨1, 0⟩, ⟨1, 1/1000⟩]) ≠
    MapComponent.correctionPipeline dFlat ⟨0, 0⟩ [⟨1, 0⟩, ⟨1, 1/1000⟩] := by
  have habs : ∀ q : ℚ, 0 ≤ q → |q| = q := fun q h => abs_of_nonneg h
  have hshift1 : MapComponent.shiftShapeToLand dFlat ⟨0, 0⟩ [⟨1, 0⟩, ⟨1, 1/1000⟩] =
      [⟨7/10, -3/20000⟩, ⟨7/10, 17/20000⟩] := by
    rw [MapComponent.shiftShapeToLand, if_neg]
    · norm_num [LatLng.mk.injEq]
    · norm_num [MapComponent.isLikelyInOcean, dFlat, abs_of_nonneg]
  have hscale1 : MapComponent.scaleShapeIfNeeded dFlat
      [⟨7/10, -3/20000⟩, ⟨7/10, 17/20000⟩] = [⟨7/10, -3/20000⟩, ⟨7/10, 17/20000⟩] := by
    rw [MapComponent.scaleShapeIfNeeded, if_neg]
    rw [MapComponent.maxPairwiseDistance]
    norm_num [MapComponent.pairsList, dFlat, abs_of_nonneg, abs_of_nonpos]
  have honce : MapComponent.correctionPipeline dFlat ⟨0, 0⟩ [⟨1, 0⟩, ⟨1, 1/1000⟩] =
      [⟨7/10, -3/20000⟩, ⟨7/10, 17/20000⟩] := by
    rw [MapComponent.correctionPipeline, hshift1, hscale1]
  have hshift2 : MapComponent.shiftShapeToLand dFlat ⟨0, 0⟩
      [⟨7/10, -3/20000⟩, ⟨7/10, 17/20000⟩] =
      [⟨49/100, -51/200000⟩, ⟨49/100, 149/200000⟩] := by
    rw [MapComponent.shiftShapeToLand, if_neg]
    · norm_num [LatLng.mk.injEq]
    · norm_num [MapComponent.isLikelyInOcean, dFlat, abs_of_nonneg, abs_of_nonpos]
  have hscale2 : MapComponent.scaleShapeIfNeeded dFlat
      [⟨49/100, -51/200000⟩, ⟨49/100, 149/200000⟩] =
      [⟨49/100, -51/200000⟩, ⟨49/100, 149/200000⟩] := by
    rw [MapComponent.scaleShapeIfNeeded, if_neg]
    rw [MapComponent.maxPairwiseDistance]
    norm_num [MapComponent.pairsList, dFlat, abs_of_nonneg, abs_of_nonpos]
  rw [honce, MapComponent.correctionPipeline, hshift2, hscale2]
  simp only [ne_eq, List.cons.injEq, LatLng.mk.injEq]
  intro h
  have := h.1.1
  norm_num at this

/-- C4 (amended): the pipeline is idempotent exactly at its fixed points:
if after one application no point is still flagged "likely in ocean" and
the corrected shape's maximum pairwise distance is at least 50 m, a second
application is a no-op. In general it is NOT idempotent
(`C4_counterexample`): a shape still more than 1000 m from the anchor
after the first shift is shifted again. -/
theorem C4_amended_pipeline_fixpoint (d : DistFn) (userLocation : LatLng)
    (points : List LatLng)
    (hocean : ∀ p ∈ MapComponent.correctionPipeline d userLocation points,
      MapComponent.isLikelyInOcean d userLocation p = false)
    (hsize : 50 ≤ MapComponent.maxPairwiseDistance d
      (MapComponent.correctionPipeline d userLocation points)) :
    MapComponent.correctionPipeline d userLocation
      (MapComponent.correctionPipeline d userLocation points) =
    MapComponent.correctionPipeline d userLocation points := by
  rw [MapComponent.correctionPipeline,
    MapComponent.shiftShapeToLand_of_noOcean d userLocation _ hocean,
    MapComponent.scaleShapeIfNeeded_of_bigEnough d _ hsize]

/-- Witness for C4 (amended): a 100 m two-point shape at the user's
location is a fixed point of the pipeline. -/
theorem C4_witness :
    (∀ p ∈ MapComponent.correctionPipeline dFlat ⟨0, 0⟩ [⟨0, 0⟩, ⟨0, 1/1000⟩],
      MapComponent.isLikelyInOcean dFlat ⟨0, 0⟩ p = false) ∧
    50 ≤ MapComponent.maxPairwiseDistance dFlat
      (MapComponent.correctionPipeline dFlat ⟨0, 0⟩ [⟨0, 0⟩, ⟨0, 1/1000⟩]) ∧
    MapComponent.correctionPipeline dFlat ⟨0, 0⟩
      (MapComponent.correctionPipeline dFlat ⟨0, 0⟩ [⟨0, 0⟩, ⟨0, 1/1000⟩]) =
    MapComponent.correctionPipeline dFlat ⟨0, 0⟩ [⟨0, 0⟩, ⟨0, 1/1000⟩] := by
  have hpipe : MapComponent.correctionPipeline dFlat ⟨0, 0⟩ [⟨0, 0⟩, ⟨0, 1/1000⟩] =
      [⟨0, 0⟩, ⟨0, 1/1000⟩] := by
    rw [MapComponent.correctionPipeline]
    rw [MapComponent.shiftShapeToLand_of_noOcean]
    · rw [MapComponent.scaleShapeIfNeeded_of_bigEnough]
      rw [MapComponent.maxPairwiseDistance]
      norm_num [MapComponent.pairsList, dFlat, abs_of_nonneg, abs_of_nonpos]
    · intro p hp
      simp only [List.mem_cons, List.not_mem_nil, or_false] at hp
      rcases hp with rfl | rfl <;>
        norm_num [MapComponent.isLikelyInOcean, dFlat, abs_of_nonneg, abs_of_nonpos]
  have hocean : ∀ p ∈ MapComponent.correctionPipeline dFlat ⟨0, 0⟩ [⟨0, 0⟩, ⟨0, 1/1000⟩],
      MapComponent.isLikelyInOcean dFlat ⟨0, 0⟩ p = false := by
    rw [hpipe]
    intro p hp
    simp only [List.mem_cons, List.not_mem_nil, or_false] at hp
    rcases hp with rfl | rfl <;>
      norm_num [MapComponent.isLikelyInOcean, dFlat, abs_of_nonneg, abs_of_nonpos]
  have hsize : 50 ≤ MapComponent.maxPairwiseDistance dFlat
      (MapComponent.correctionPipeline dFlat ⟨0, 0⟩ [⟨0, 0⟩, ⟨0, 1/1000⟩]) := by
    rw [hpipe]
    rw [MapComponent.maxPairwiseDistance]
    norm_num [MapComponent.pairsList, dFlat, abs_of_nonneg, abs_of_nonpos]
  exact ⟨hocean, hsize,
    C4_amended_pipeline_fixpoint dFlat ⟨0, 0⟩ [⟨0, 0⟩, ⟨0, 1/1000⟩] hocean hsize⟩

namespace Directions

/-- A merged narration step (`Directions.tsx` 26): instruction text,
distance in meters, optional start/end points. -/
structure NStep where
  instruction : String
  distanceMeters : ℚ
  startPt : Option LatLng
  endPt : Option LatLng
deriving DecidableEq, Repr

/-- The mutable session state read and written by the auto-advance effect:
`currentStep` (React state) and the one-shot `arrivalSpokenRef`. -/
structure NavState where
  currentStep : ℕ
  arrivalSpoken : Bool
deriving DecidableEq, Repr

/-- One run of the auto-advance effect (`Directions.tsx` 171–191) for a
position update: if enabled, with steps present, a current position, a
current step and a defined end point, then within 25 m either advance to
the next step (narrating its instruction) or, on the last step, narrate
the arrival message exactly once, guarded by `arrivalSpoken`. Returns the
new state and the texts passed to `speak`. -/
def autoAdvanceStep (d : DistFn) (steps : List NStep) (autoAdvanceEnabled : Bool)
    (s : NavState) (currentPosition : Option LatLng) : NavState × List String :=
  if autoAdvanceEnabled = false then (s, [])
  else if steps.length = 0 then (s, [])
  else
    match currentPosition with
    | none => (s, [])
    | some pos =>
      match steps[s.currentStep]? with
      | none => (s, [])
      | some step =>
        match step.endPt with
        | none => (s, [])
        | some e =>
          if d pos e ≤ 25 ∧ s.currentStep < steps.length - 1 then
            ({ s with currentStep := s.currentStep + 1 },
              [(match steps[s.currentStep + 1]? with
                | some next => next.instruction
                | none => "")])
          else if d pos e ≤ 25 ∧ s.currentStep = steps.length - 1 ∧
              s.arrivalSpoken = false then
            ({ s with arrivalSpoken := true }, ["You have reached your destination"])
          else (s, [])

/-- Feed a sequence of position updates through the auto-advance effect,
one at a time in arrival order, collecting narration events. -/
def runUpdates (d : DistFn) (steps : List NStep) (auto : Bool) :
    NavState → List (Option LatLng) → NavState × List String
  | s, [] => (s, [])
  | s, pos :: rest =>
    ((runUpdates d steps auto (autoAdvanceStep d steps auto s pos).1 rest).1,
      (autoAdvanceStep d steps auto s pos).2 ++
        (runUpdates d steps auto (autoAdvanceStep d steps auto s pos).1 rest).2)

/-- Once the arrival flag is set and the cursor is on the last step, the
effect does nothing on any further update. -/
theorem autoAdvanceStep_absorbed (d : DistFn) (steps : List NStep)
    (p : Option LatLng) (hne : steps.length ≠ 0) :
    autoAdvanceStep d steps true ⟨steps.length - 1, true⟩ p =
      (⟨steps.length - 1, true⟩, []) := by
  rw [autoAdvanceStep.eq_def]
  repeat' split
  all_goals try rfl
  all_goals simp_all

theorem runUpdates_absorbed (d : DistFn) (steps : List NStep)
    (hne : steps.length ≠ 0) (ups : List (Option LatLng)) :
    runUpdates d steps true ⟨steps.length - 1, true⟩ ups =
      (⟨steps.length - 1, true⟩, []) := by
  induction ups with
  | nil => rfl
  | cons p rest ih =>
    rw [runUpdates, autoAdvanceStep_absorbed d steps p hne]
    rw [ih]
    rfl

end Directions

/-- C8: within one open directions session with the cursor on the last
step, a sequence of position updates all within 25 m of the final step's
end point narrates the arrival message exactly once (on the first update),
leaves the cursor on the last step, and emits nothing on any later
update. -/
theorem C8_arrival_narrated_once (d : DistFn) (steps : List Directions.NStep)
    (e : LatLng) (ls : Directions.NStep)
    (hne : steps.length ≠ 0)
    (hls : steps[steps.length - 1]? = some ls)
    (hend : ls.endPt = some e)
    (pos0 : LatLng) (updates : List LatLng)
    (hprox0 : d pos0 e ≤ 25)
    (hprox : ∀ p ∈ updates, d p e ≤ 25) :
    Directions.runUpdates d steps true ⟨steps.length - 1, false⟩
      ((pos0 :: updates).map some) =
      (⟨steps.length - 1, true⟩, ["You have reached your destination"]) := by
  have hfirst : Directions.autoAdvanceStep d steps true ⟨steps.length - 1, false⟩
      (some pos0) = (⟨steps.length - 1, true⟩, ["You have reached your destination"]) := by
    rw [Directions.autoAdvanceStep.eq_def]
    rw [if_neg (by simp), if_neg hne]
    simp only [hls, hend]
    rw [if_neg (fun hc => absurd hc.2 (by simp)), if_pos ⟨hprox0, by simp, by simp⟩]
  rw [List.map_cons, Directions.runUpdates, hfirst]
  rw [Directions.runUpdates_absorbed d steps hne]
  rfl

/-- Witness for C8: a one-step session and two consecutive in-range
updates; exactly one arrival narration. -/
theorem C8_witness :
    (dFlat ⟨0, 1/1000000⟩ ⟨0, 0⟩ ≤ 25) ∧
    Directions.runUpdates dFlat [⟨"Head north", 100, none, some ⟨0, 0⟩⟩] true
      ⟨0, false⟩ [some ⟨0, 1/1000000⟩, some ⟨0, 0⟩] =
      (⟨0, true⟩, ["You have reached your destination"]) := by
  have h1 : dFlat ⟨0, 1/1000000⟩ ⟨0, 0⟩ ≤ 25 := by
    rw [dFlat]
    rw [show |(0 : ℚ) - 0| = 0 by norm_num]
    rw [show |(1 : ℚ)/1000000 - 0| = 1/1000000 by rw [abs_of_nonneg] <;> norm_num]
    norm_num
  refine ⟨h1, ?_⟩
  have h2 := C8_arrival_narrated_once dFlat [⟨"Head north", 100, none, some ⟨0, 0⟩⟩]
    ⟨0, 0⟩ ⟨"Head north", 100, none, some ⟨0, 0⟩⟩ (by norm_num) rfl rfl
    ⟨0, 1/1000000⟩ [⟨0, 0⟩] h1 ?_
  · exact h2
  · intro p hp
    simp only [List.mem_cons, List.not_mem_nil, or_false] at hp
    subst hp
    rw [dFlat]
    norm_num

namespace Directions

/-- A raw provider step's distance field: the Google route info carries
text (`"0.3 km"`, `"120 m"`), the mock route carries plain numbers. -/
inductive JsNumStr where
  | num (q : ℚ)
  | str (s : String)
deriving DecidableEq, Repr

/-- A raw provider step as consumed by `mergeConsecutiveSteps`
(`Directions.tsx` 93–109): instruction, distance, optional endpoints. -/
structure RawStep where
  instruction : String
  distance : JsNumStr
  startPt : Option LatLng
  endPt : Option LatLng
deriving DecidableEq, Repr

/-- Scan for the first `>`, returning the remainder after it (`none` when
no `>` exists, in which case the regex `/<[^>]*>/` has no match). -/
def splitAtGt : List Char → Option (List Char)
  | [] => none
  | c :: rest => if c = '>' then some rest else splitAtGt rest

theorem splitAtGt_length : ∀ {l r : List Char}, splitAtGt l = some r →
    r.length < l.length := by
  intro l
  induction l with
  | nil => intro r h; simp [splitAtGt] at h
  | cons c rest ih =>
    intro r h
    rw [splitAtGt] at h
    split at h
    · cases h
      simp
    · exact Nat.lt_trans (ih h) (by simp)

/-- Structural worker for `stripTags`: the fuel bounds the number of
consumed characters (each step consumes at least one input character, so
`fuel = l.length` always suffices — see `splitAtGt_length`). -/
def stripTagsGo : ℕ → List Char → List Char
  | 0, l => l
  | _ + 1, [] => []
  | fuel + 1, c :: rest =>
    if c = '<' then
      match splitAtGt rest with
      | some r => stripTagsGo fuel r
      | none => c :: rest
    else c :: stripTagsGo fuel rest

/-- `replace(/<[^>]*>/g, '')`: drop every complete `<...>` tag; an
unmatched `<` (no later `>`) is kept together with the rest verbatim. -/
def stripTags (l : List Char) : List Char := stripTagsGo l.length l

/-- JS `\s` for the characters that occur in provider instructions. -/
def isWsChar (c : Char) : Bool := c = ' ' || c = '\t' || c = '\n' || c = '\r'

/-- `normalizeInstruction` (`Directions.tsx` 71–74): strip HTML tags, trim
and collapse whitespace runs to single spaces, lowercase. (Trim + collapse
is expressed as: split on whitespace, drop empty tokens, re-join with
single spaces.) -/
def normalizeInstruction (s : String) : String :=
  ((List.intercalate [' ']
    (((stripTags s.toList).splitOnP isWsChar).filter (· ≠ []))).map Char.toLower).asString

/-- `trim()` on a character list. -/
def trimCh (l : List Char) : List Char :=
  ((l.dropWhile isWsChar).reverse.dropWhile isWsChar).reverse

/-- The characters kept by `replace(/[^0-9.\-]/g, '')`. -/
def keepNumChar (c : Char) : Bool := c.isDigit || c = '.' || c = '-'

/-- `includes('km')` on a character list. -/
def containsKm : List Char → Bool
  | [] => false
  | c :: rest => (c = 'k' && rest.head? = some 'm') || containsKm rest

/-- Numeric value of a digit run. -/
def digitsToNat (l : List Char) : ℕ :=
  l.foldl (fun n c => n * 10 + (c.toNat - 48)) 0

/-- `parseFloat` on the restricted alphabet `[0-9.\-]` (after stripping):
an optional integer part, an optional single `.` with a fraction part,
parsing stops at any further `-` or `.`; `none` models `NaN` (no digits
at all). -/
def parseUnsigned (l : List Char) : Option ℚ :=
  match l.dropWhile Char.isDigit with
  | '.' :: rest2 =>
    if (l.takeWhile Char.isDigit).isEmpty ∧ (rest2.takeWhile Char.isDigit).isEmpty
    then none
    else some ((digitsToNat (l.takeWhile Char.isDigit) : ℚ) +
      (digitsToNat (rest2.takeWhile Char.isDigit) : ℚ) / 10 ^ (rest2.takeWhile Char.isDigit).length)
  | _ =>
    if (l.takeWhile Char.isDigit).isEmpty then none
    else some (digitsToNat (l.takeWhile Char.isDigit) : ℚ)

/-- `parseFloat` with an optional leading minus sign. -/
def parseFloatQ (l : List Char) : Option ℚ :=
  match l with
  | '-' :: rest => (parseUnsigned rest).map fun q => -q
  | _ => parseUnsigned l

/-- `toMeters` (`Directions.tsx` 77–90): numbers pass through; strings are
trimmed, lowercased, checked for a `km` unit, stripped to `[0-9.\-]` and
parsed; `NaN` (unparseable) becomes 0. -/
def toMeters : JsNumStr → ℚ
  | .num q => q
  | .str s =>
    if containsKm ((trimCh s.toList).map Char.toLower) then
      match parseFloatQ (((trimCh s.toList).map Char.toLower).filter keepNumChar) with
      | some v => v * 1000
      | none => 0
    else
      match parseFloatQ (((trimCh s.toList).map Char.toLower).filter keepNumChar) with
      | some v => v
      | none => 0

/-- The `NarrationStep` built from a single raw step. -/
def mkNStep (st : RawStep) : NStep :=
  ⟨st.instruction, toMeters st.distance, st.startPt, st.endPt⟩

/-- The loop of `mergeConsecutiveSteps` (`Directions.tsx` 93–109); the
accumulator is kept reversed so the last pushed step is its head (the JS
code mutates `out[out.length - 1]` in place). -/
def mergeGo : List NStep → List RawStep → List NStep
  | acc, [] => acc.reverse
  | [], st :: rest => mergeGo [mkNStep st] rest
  | prev :: accTl, st :: rest =>
    if normalizeInstruction prev.instruction = normalizeInstruction st.instruction then
      mergeGo ({ prev with
        distanceMeters := prev.distanceMeters + toMeters st.distance,
        endPt := match st.endPt with | some e => some e | none => prev.endPt } :: accTl)
        rest
    else mergeGo (mkNStep st :: prev :: accTl) rest

/-- `mergeConsecutiveSteps` (`Directions.tsx` 93–109): merge consecutive
raw steps with identical normalized instructions, summing parsed
distances; a defined end point of a merged-in step overwrites the stored
one. -/
def mergeConsecutiveSteps (raw : List RawStep) : List NStep := mergeGo [] raw

end Directions

namespace Directions

/-- One step of the specification-side merge: absorb `p` into the already
merged tail (whose head, if any, is the first step of the next run). -/
def specCombine (p : NStep) : List NStep → List NStep
  | [] => [p]
  | t :: ts =>
    if normalizeInstruction p.instruction = normalizeInstruction t.instruction then
      ⟨p.instruction, p.distanceMeters + t.distanceMeters, p.startPt,
        match t.endPt with | some e => some e | none => p.endPt⟩ :: ts
    else p :: t :: ts

/-- Specification-side merge (the amended C7 rule): consecutive raw steps
with identical normalized instructions collapse into one step carrying the
first member's instruction and start point, the sum of the members'
parsed distances, and the last *defined* end point among the members. -/
def mergeSpecification : List RawStep → List NStep
  | [] => []
  | st :: rest => specCombine (mkNStep st) (mergeSpecification rest)

theorem specCombine_head (q : NStep) (M : List NStep) :
    ∃ t ts, specCombine q M = t :: ts ∧ t.instruction = q.instruction := by
  match M with
  | [] => exact ⟨q, [], rfl, rfl⟩
  | t :: ts =>
    rw [specCombine]
    split
    · exact ⟨_, ts, rfl, rfl⟩
    · exact ⟨q, t :: ts, rfl, rfl⟩

theorem specCombine_nil (p : NStep) : specCombine p [] = [p] := rfl

theorem specCombine_cons_pos (p t : NStep) (ts : List NStep)
    (h : normalizeInstruction p.instruction = normalizeInstruction t.instruction) :
    specCombine p (t :: ts) =
      ⟨p.instruction, p.distanceMeters + t.distanceMeters, p.startPt,
        match t.endPt with | some e => some e | none => p.endPt⟩ :: ts := by
  rw [specCombine, if_pos h]

theorem specCombine_cons_neg (p t : NStep) (ts : List NStep)
    (h : ¬normalizeInstruction p.instruction = normalizeInstruction t.instruction) :
    specCombine p (t :: ts) = p :: t :: ts := by
  rw [specCombine, if_neg h]

theorem specCombine_absorb (p : NStep) (st : RawStep) (M : List NStep)
    (hC : normalizeInstruction p.instruction = normalizeInstruction st.instruction) :
    specCombine { p with
        distanceMeters := p.distanceMeters + toMeters st.distance,
        endPt := match st.endPt with | some e => some e | none => p.endPt } M =
      specCombine p (specCombine (mkNStep st) M) := by
  set q : NStep := { p with
    distanceMeters := p.distanceMeters + toMeters st.distance,
    endPt := match st.endPt with | some e => some e | none => p.endPt } with hq
  match M with
  | [] =>
    rw [specCombine_nil q, specCombine_nil (mkNStep st),
      specCombine_cons_pos p (mkNStep st) [] hC]
    rw [hq]
    simp [mkNStep]
  | t :: ts =>
    by_cases hC2 : normalizeInstruction st.instruction = normalizeInstruction t.instruction
    · rw [specCombine_cons_pos (mkNStep st) t ts hC2]
      rw [specCombine_cons_pos p _ ts hC]
      rw [specCombine_cons_pos q t ts (by rw [hq]; exact hC.trans hC2)]
      refine List.cons_eq_cons.2 ⟨?_, rfl⟩
      rw [hq]
      cases ht : t.endPt <;> cases hst : st.endPt <;>
        simp [mkNStep, ht, hst, add_assoc]
    · rw [specCombine_cons_neg (mkNStep st) t ts hC2]
      rw [specCombine_cons_pos p (mkNStep st) (t :: ts) hC]
      rw [specCombine_cons_neg q t ts (by rw [hq]; exact fun h => hC2 (hC.symm.trans h))]
      rw [hq]
      simp [mkNStep]

theorem mergeGo_acc (p : NStep) (accTl : List NStep) (l : List RawStep) :
    mergeGo (p :: accTl) l = accTl.reverse ++ mergeGo [p] l := by
  induction l generalizing p accTl with
  | nil => simp [mergeGo]
  | cons st rest ih =>
    by_cases hC : normalizeInstruction p.instruction = normalizeInstruction st.instruction
    · conv_lhs => rw [mergeGo, if_pos hC]
      conv_rhs => rw [mergeGo, if_pos hC]
      rw [ih _ accTl]
    · conv_lhs => rw [mergeGo, if_neg hC]
      conv_rhs => rw [mergeGo, if_neg hC]
      rw [ih (mkNStep st) (p :: accTl), ih (mkNStep st) [p]]
      simp

theorem mergeGo_single (p : NStep) (l : List RawStep) :
    mergeGo [p] l = specCombine p (mergeSpecification l) := by
  induction l generalizing p with
  | nil => rfl
  | cons st rest ih =>
    by_cases hC : normalizeInstruction p.instruction = normalizeInstruction st.instruction
    · rw [mergeGo, if_pos hC, ih]
      rw [mergeSpecification]
      exact specCombine_absorb p st (mergeSpecification rest) hC
    · rw [mergeGo, if_neg hC]
      rw [mergeGo_acc (mkNStep st) [p] rest, ih]
      rw [mergeSpecification]
      obtain ⟨t, ts, hEq, hInstr⟩ :=
        specCombine_head (mkNStep st) (mergeSpecification rest)
      rw [hEq, specCombine_cons_neg p t ts (by rw [hInstr]; exact hC)]
      rw [← hEq]
      simp

/-- The implemented merge equals the specification-side merge. -/
theorem mergeConsecutiveSteps_eq_spec (raw : List RawStep) :
    mergeConsecutiveSteps raw = mergeSpecification raw := by
  match raw with
  | [] => rfl
  | st :: rest =>
    rw [mergeConsecutiveSteps, mergeGo, mergeGo_single, mergeSpecification]

end Directions

/-- Counterexample to C7 as stated: when two consecutive steps have
identical normalized instructions but the later step's end point is
undefined, the merged step keeps the *earlier* defined end point, not the
later step's (undefined) one — the code only overwrites the end point when
the merged-in step defines one (`if (end) out[...].end = end`). -/
theorem C7_counterexample :
    Directions.normalizeInstruction "Turn <b>left</b>" =
      Directions.normalizeInstruction "  turn LEFT " ∧
    (Directions.mergeConsecutiveSteps
      [⟨"Turn <b>left</b>", .num 5, none, some ⟨1, 1⟩⟩,
       ⟨"  turn LEFT ", .num 7, none, none⟩]).map Directions.NStep.endPt =
      [some ⟨1, 1⟩] ∧
    (⟨"  turn LEFT ", .num 7, none, none⟩ : Directions.RawStep).endPt = none ∧
    (Directions.mergeConsecutiveSteps
      [⟨"Turn <b>left</b>", .num 5, none, some ⟨1, 1⟩⟩,
       ⟨"  turn LEFT ", .num 7, none, none⟩]).map Directions.NStep.endPt ≠
      [(⟨"  turn LEFT ", .num 7, none, none⟩ : Directions.RawStep).endPt] := by
  refine ⟨by decide, by decide, rfl, by decide⟩

/-- C7 (amended): step merging merges consecutive raw provider steps
exactly when their normalized instruction text (HTML-stripped,
whitespace-collapsed, case-folded) is identical; each merged
`NarrationStep` carries its first member's instruction and start point,
the sum of its members' distances parsed to meters, and the last *defined*
end point among its members (the later step's end point when it is
defined, otherwise the earlier one's — this last clause is where the
original claim fails, see `C7_counterexample`). Stated as a refinement:
the implementation equals the specification-side merge
`Directions.mergeSpecification`, which is written from exactly that
rule. -/
theorem C7_amended_step_merging (raw : List Directions.RawStep) :
    Directions.mergeConsecutiveSteps raw = Directions.mergeSpecification raw :=
  Directions.mergeConsecutiveSteps_eq_spec raw

namespace MapComponent

/-- The successful result of `findScaleForTargetDistance` (map component,
861: `{ factor, scaledPoints, finalDistance }`). -/
structure FitResult where
  factor : ℚ
  scaledPoints : List LatLng
  finalDistance : ℚ
deriving DecidableEq, Repr

/-- `scalePointsAround` (map component, 843–858): scale every point about
`center` by `factor`; for shapes of more than 2 points whose original
first and last points coincide to within 1e-9 (`Math.hypot(dlat, dlng) <
1e-9`, i.e. exactly `dlat^2 + dlng^2 < 1e-18`), re-close the scaled shape
by replacing its last point with a copy of its first. -/
def scalePointsAround (points : List LatLng) (center : LatLng) (factor : ℚ) : List LatLng :=
  let scaled := points.map fun p =>
    (⟨center.lat + (p.lat - center.lat) * factor,
      center.lng + (p.lng - center.lng) * factor⟩ : LatLng)
  if 2 < points.length ∧
      (points.headI.lat - points.getLastI.lat) ^ 2 +
        (points.headI.lng - points.getLastI.lng) ^ 2 < 1 / 10 ^ 18 then
    scaled.dropLast ++ [scaled.headI]
  else scaled

/-- The route resolver seen by the fitting search: `getShapeRoute` with
its environment (provider availability) baked in. `Except.error` models a
rejected promise escaping to the search's `try/catch`. -/
def Resolve := List LatLng → Except Unit (Option GoogleMapsRouting.RouteResult)

/-- `res?.distance || 0`. -/
def distOr0 : Option GoogleMapsRouting.RouteResult → ℚ
  | some r => r.distance
  | none => 0

/-- `evalDist` (map component, 874–878): scale the base shape by `f`,
resolve a route over it, and return the routed distance (0 when the
resolver yields no route) together with the scaled points. -/
def evalDist (resolve : Resolve) (basePoints : List LatLng) (center : LatLng) (f : ℚ) :
    Except Unit (ℚ × List LatLng) :=
  match resolve (scalePointsAround basePoints center f) with
  | .ok res => .ok (distOr0 res, scalePointsAround basePoints center f)
  | .error e => .error e

/-- The bracket test of the widening loop (map component, 884): the target
lies between the two evaluated distances, in either order. -/
def bracketed (loDist hiDist target : ℚ) : Prop :=
  (loDist ≤ target ∧ target ≤ hiDist) ∨ (target ≤ loDist ∧ hiDist ≤ target)

instance (a b c : ℚ) : Decidable (bracketed a b c) :=
  inferInstanceAs (Decidable ((a ≤ c ∧ c ≤ b) ∨ (c ≤ a ∧ b ≤ c)))

/-- The bracket-widening loop (map component, 884–889): up to `fuel` (= 3)
times, while the target is not bracketed, widen `lo` down by half (clamped
at 0.2 = 1/5) and `hi` up by half (clamped at 5) and re-evaluate both
ends. -/
def widenLoop (resolve : Resolve) (basePoints : List LatLng) (center : LatLng) (target : ℚ) :
    ℕ → ℚ → ℚ → ℚ × List LatLng → ℚ × List LatLng →
      Except Unit (ℚ × ℚ × (ℚ × List LatLng) × (ℚ × List LatLng))
  | 0, lo, hi, loEval, hiEval => .ok (lo, hi, loEval, hiEval)
  | fuel + 1, lo, hi, loEval, hiEval =>
    if bracketed loEval.1 hiEval.1 target then .ok (lo, hi, loEval, hiEval)
    else
      match evalDist resolve basePoints center (max (1/5) (lo * (1/2))) with
      | .error e => .error e
      | .ok loEval' =>
        match evalDist resolve basePoints center (min 5 (hi * (3/2))) with
        | .error e => .error e
        | .ok hiEval' =>
          widenLoop resolve basePoints center target fuel
            (max (1/5) (lo * (1/2))) (min 5 (hi * (3/2))) loEval' hiEval'

/-- The best-seen state of the bisection loop (`{ f, dist, scaled }`,
map component, 892). -/
structure BestSt where
  f : ℚ
  dist : ℚ
  scaled : List LatLng
deriving DecidableEq, Repr

/-- The bisection loop (map component, 893–912): up to `fuel` (= 7) times,
evaluate the midpoint's routed distance, keep the best-seen state by
absolute error to the target, narrow the bracket toward the side that
straddles the target (`loBelow !== midBelow`), and stop early once the
best error is within `max 10 (0.005 × target)` (0.005 = 5/1000). -/
def bisectLoop (resolve : Resolve) (basePoints : List LatLng) (center : LatLng) (target : ℚ) :
    ℕ → ℚ → ℚ → ℚ → ℚ → BestSt → Except Unit BestSt
  | 0, _, _, _, _, best => .ok best
  | fuel + 1, lo, hi, loDist, hiDist, best =>
    match evalDist resolve basePoints center ((lo + hi) / 2) with
    | .error e => .error e
    | .ok midEval =>
      let mid := (lo + hi) / 2
      let best' := if |midEval.1 - target| < |best.dist - target| then
          (⟨mid, midEval.1, midEval.2⟩ : BestSt) else best
      let next : ℚ × ℚ × ℚ × ℚ :=
        if decide (loDist < target) ≠ decide (midEval.1 < target) then
          (lo, mid, loDist, midEval.1)
        else (mid, hi, midEval.1, hiDist)
      if |best'.dist - target| ≤ max 10 (target * (5/1000)) then .ok best'
      else bisectLoop resolve basePoints center target fuel
        next.1 next.2.1 next.2.2.1 next.2.2.2 best'

/-- The bracket-then-bisect phase of `findScaleForTargetDistance` (map
component, 884–912), starting from an established initial bracket and its
two evaluations. -/
def fitFromBracket (resolve : Resolve) (basePoints : List LatLng) (center : LatLng)
    (target lo hi : ℚ) (loEval hiEval : ℚ × List LatLng) : Except Unit BestSt :=
  match widenLoop resolve basePoints center target 3 lo hi loEval hiEval with
  | .error e => .error e
  | .ok (lo', hi', loEval', hiEval') =>
    let best := if |loEval'.1 - target| ≤ |hiEval'.1 - target| then
        (⟨lo', loEval'.1, loEval'.2⟩ : BestSt)
      else ⟨hi', hiEval'.1, hiEval'.2⟩
    bisectLoop resolve basePoints center target 7 lo' hi' loEval'.1 hiEval'.1 best

/-- `findScaleForTargetDistance` (map component, 862–920): resolve the
base distance (`max(1, baseRoute?.distance || 0)`), clamp an initial
factor guess `target / baseDistance` into [0.2, 5], establish a bracket
`[max(0.2, 0.5 × f0), min(5, 1.5 × f0)]`, widen it up to 3 times, run up
to 7 bisection iterations keeping the best state by absolute error, and
return the best `(factor, scaledPoints, finalDistance)`; any resolver
rejection is caught by the surrounding `try/catch` and turned into
`none`. -/
def findScaleForTargetDistance (resolve : Resolve) (basePoints : List LatLng)
    (center : LatLng) (targetDistance : ℚ) : Option FitResult :=
  match resolve basePoints with
  | .error _ => none
  | .ok baseRoute =>
    let baseDistance := max 1 (distOr0 baseRoute)
    let target := max 1 targetDistance
    let initialFactor := min 5 (max (1/5) (target / baseDistance))
    let lo := max (1/5) (initialFactor * (1/2))
    let hi := min 5 (initialFactor * (3/2))
    match evalDist resolve basePoints center lo with
    | .error _ => none
    | .ok loEval =>
      match evalDist resolve basePoints center hi with
      | .error _ => none
      | .ok hiEval =>
        match fitFromBracket resolve basePoints center target lo hi loEval hiEval with
        | .error _ => none
        | .ok best => some ⟨best.f, best.scaled, best.dist⟩

end MapComponent

namespace MapComponent

theorem evalDist_total (resolve : Resolve) (b : List LatLng) (center : LatLng)
    (hres : ∀ pts, ∃ o, resolve pts = .ok o) (f : ℚ) :
    ∃ q, evalDist resolve b center f = .ok (q, scalePointsAround b center f) := by
  obtain ⟨o, ho⟩ := hres (scalePointsAround b center f)
  exact ⟨distOr0 o, by rw [evalDist, ho]⟩

theorem widenLoop_total (resolve : Resolve) (b : List LatLng) (center : LatLng)
    (hres : ∀ pts, ∃ o, resolve pts = .ok o) (target : ℚ) :
    ∀ (n : ℕ) (lo hi : ℚ) (loE hiE : ℚ × List LatLng),
      1/5 ≤ lo → lo ≤ hi → hi ≤ 5 →
      evalDist resolve b center lo = .ok loE →
      evalDist resolve b center hi = .ok hiE →
      ∃ lo' hi' loE' hiE',
        widenLoop resolve b center target n lo hi loE hiE = .ok (lo', hi', loE', hiE') ∧
        1/5 ≤ lo' ∧ lo' ≤ hi' ∧ hi' ≤ 5 ∧
        evalDist resolve b center lo' = .ok loE' ∧
        evalDist resolve b center hi' = .ok hiE' := by
  intro n
  induction n with
  | zero =>
    intro lo hi loE hiE h1 h2 h3 h4 h5
    exact ⟨lo, hi, loE, hiE, rfl, h1, h2, h3, h4, h5⟩
  | succ n ih =>
    intro lo hi loE hiE h1 h2 h3 h4 h5
    by_cases hbr : bracketed loE.1 hiE.1 target
    · rw [widenLoop, if_pos hbr]
      exact ⟨lo, hi, loE, hiE, rfl, h1, h2, h3, h4, h5⟩
    · obtain ⟨q1, hq1⟩ := evalDist_total resolve b center hres (max (1/5) (lo * (1/2)))
      obtain ⟨q2, hq2⟩ := evalDist_total resolve b center hres (min 5 (hi * (3/2)))
      rw [widenLoop, if_neg hbr]
      simp only [hq1, hq2]
      exact ih (max (1/5) (lo * (1/2))) (min 5 (hi * (3/2))) _ _
        (le_max_left _ _)
        (le_min (max_le (by norm_num) (by linarith)) (max_le (by linarith) (by linarith)))
        (min_le_left _ _) hq1 hq2

theorem bisectLoop_total (resolve : Resolve) (b : List LatLng) (center : LatLng)
    (hres : ∀ pts, ∃ o, resolve pts = .ok o) (target : ℚ) :
    ∀ (n : ℕ) (lo hi loD hiD : ℚ) (best : BestSt),
      1/5 ≤ lo → lo ≤ hi → hi ≤ 5 →
      1/5 ≤ best.f → best.f ≤ 5 →
      evalDist resolve b center best.f = .ok (best.dist, best.scaled) →
      ∃ r, bisectLoop resolve b center target n lo hi loD hiD best = .ok r ∧
        1/5 ≤ r.f ∧ r.f ≤ 5 ∧
        evalDist resolve b center r.f = .ok (r.dist, r.scaled) := by
  intro n
  induction n with
  | zero =>
    intro lo hi loD hiD best _ _ _ hb1 hb2 hbe
    exact ⟨best, rfl, hb1, hb2, hbe⟩
  | succ n ih =>
    intro lo hi loD hiD best h1 h2 h3 hb1 hb2 hbe
    obtain ⟨qm, hqm⟩ := evalDist_total resolve b center hres ((lo + hi) / 2)
    rw [bisectLoop]
    simp only [hqm]
    have hmid1 : 1/5 ≤ (lo + hi) / 2 := by linarith
    have hmid2 : (lo + hi) / 2 ≤ 5 := by linarith
    have hbest' :
        ∀ best'' : BestSt,
          best'' = (if |qm - target| < |best.dist - target| then
            (⟨(lo + hi) / 2, qm, scalePointsAround b center ((lo + hi) / 2)⟩ : BestSt)
          else best) →
          1/5 ≤ best''.f ∧ best''.f ≤ 5 ∧
          evalDist resolve b center best''.f = .ok (best''.dist, best''.scaled) := by
      intro best'' hdef
      by_cases hc : |qm - target| < |best.dist - target|
      · rw [hdef, if_pos hc]
        exact ⟨hmid1, hmid2, hqm⟩
      · rw [hdef, if_neg hc]
        exact ⟨hb1, hb2, hbe⟩
    obtain ⟨hB1, hB2, hB3⟩ := hbest' _ rfl
    by_cases htol :
        |(if |qm - target| < |best.dist - target| then
            (⟨(lo + hi) / 2, qm, scalePointsAround b center ((lo + hi) / 2)⟩ : BestSt)
          else best).dist - target| ≤ max 10 (target * (5/1000))
    · rw [if_pos htol]
      exact ⟨_, rfl, hB1, hB2, hB3⟩
    · rw [if_neg htol]
      by_cases hbranch : decide (loD < target) ≠ decide (qm < target)
      · rw [if_pos hbranch]
        exact ih lo ((lo + hi) / 2) loD qm _ h1 (by linarith) hmid2 hB1 hB2 hB3
      · rw [if_neg hbranch]
        exact ih ((lo + hi) / 2) hi qm hiD _ hmid1 (by linarith) h3 hB1 hB2 hB3

end MapComponent

namespace MapComponent

theorem fitFromBracket_total (resolve : Resolve) (b : List LatLng) (center : LatLng)
    (hres : ∀ pts, ∃ o, resolve pts = .ok o) (target lo hi : ℚ)
    (loE hiE : ℚ × List LatLng)
    (h1 : 1/5 ≤ lo) (h2 : lo ≤ hi) (h3 : hi ≤ 5)
    (h4 : evalDist resolve b center lo = .ok loE)
    (h5 : evalDist resolve b center hi = .ok hiE) :
    ∃ r, fitFromBracket resolve b center target lo hi loE hiE = .ok r ∧
      1/5 ≤ r.f ∧ r.f ≤ 5 ∧
      evalDist resolve b center r.f = .ok (r.dist, r.scaled) := by
  obtain ⟨lo', hi', loE', hiE', hw, hw1, hw2, hw3, hw4, hw5⟩ :=
    widenLoop_total resolve b center hres target 3 lo hi loE hiE h1 h2 h3 h4 h5
  rw [fitFromBracket, hw]
  simp only
  by_cases hc : |loE'.1 - target| ≤ |hiE'.1 - target|
  · rw [if_pos hc]
    exact bisectLoop_total resolve b center hres target 7 lo' hi' loE'.1 hiE'.1 _
      hw1 hw2 hw3 hw1 (le_trans hw2 hw3) (by rw [Prod.mk.eta]; exact hw4)
  · rw [if_neg hc]
    exact bisectLoop_total resolve b center hres target 7 lo' hi' loE'.1 hiE'.1 _
      hw1 hw2 hw3 (le_trans hw1 hw2) hw3 (by rw [Prod.mk.eta]; exact hw5)

theorem findScale_total_spec (resolve : Resolve) (b : List LatLng) (center : LatLng)
    (T : ℚ) (hres : ∀ pts, ∃ o, resolve pts = .ok o) :
    ∃ r, findScaleForTargetDistance resolve b center T = some r ∧
      1/5 ≤ r.factor ∧ r.factor ≤ 5 ∧
      evalDist resolve b center r.factor = .ok (r.finalDistance, r.scaledPoints) ∧
      r.scaledPoints = scalePointsAround b center r.factor := by
  obtain ⟨o, ho⟩ := hres b
  rw [findScaleForTargetDistance, ho]
  simp only
  set F := min 5 (max (1/5) (max 1 T / max 1 (distOr0 o))) with hF
  have hF1 : (1:ℚ)/5 ≤ F := le_min (by norm_num) (le_max_left _ _)
  have hF2 : F ≤ 5 := min_le_left _ _
  set lo0 := max (1/5) (F * (1/2)) with hlo0
  set hi0 := min 5 (F * (3/2)) with hhi0
  have hb1 : (1:ℚ)/5 ≤ lo0 := le_max_left _ _
  have hb2 : lo0 ≤ hi0 :=
    le_min (max_le (by norm_num) (by linarith)) (max_le (by linarith) (by linarith))
  have hb3 : hi0 ≤ 5 := min_le_left _ _
  obtain ⟨ql, hql⟩ := evalDist_total resolve b center hres lo0
  obtain ⟨qh, hqh⟩ := evalDist_total resolve b center hres hi0
  simp only [hql, hqh]
  obtain ⟨r0, hr0, hr1, hr2, hr3⟩ :=
    fitFromBracket_total resolve b center hres (max 1 T) lo0 hi0 _ _ hb1 hb2 hb3 hql hqh
  simp only [hr0]
  refine ⟨⟨r0.f, r0.scaled, r0.dist⟩, rfl, hr1, hr2, hr3, ?_⟩
  obtain ⟨q, hq⟩ := evalDist_total resolve b center hres r0.f
  rw [hr3] at hq
  exact (Prod.mk.injEq _ _ _ _ ▸ (Except.ok.injEq _ _ ▸ hq)).2

end MapComponent

namespace MapComponent

theorem bisectLoop_converges (resolve : Resolve) (b : List LatLng) (center : LatLng)
    (c T : ℚ) (hc : 0 < c)
    (hev : ∀ f : ℚ, 0 < f →
      evalDist resolve b center f = .ok (c * f, scalePointsAround b center f)) :
    ∀ (n : ℕ) (lo hi : ℚ) (best : BestSt),
      0 < lo → lo ≤ hi →
      c * lo ≤ T → T ≤ c * hi →
      0 < best.f → best.dist = c * best.f →
      |best.dist - T| ≤ min (T - c * lo) (c * hi - T) →
      ∃ r, bisectLoop resolve b center T n lo hi (c * lo) (c * hi) best = .ok r ∧
        0 < r.f ∧ r.dist = c * r.f ∧
        (|r.dist - T| ≤ c * (hi - lo) / 2 ^ (n + 1) ∨
         |r.dist - T| ≤ max 10 (T * (5/1000))) := by
  intro n
  induction n with
  | zero =>
    intro lo hi best hlo hlh hloT hThi hbf hbd hberr
    refine ⟨best, rfl, hbf, hbd, Or.inl ?_⟩
    have hmin : min (T - c * lo) (c * hi - T) ≤ c * (hi - lo) / 2 ^ (0 + 1) := by
      rcases le_total (T - c * lo) (c * hi - T) with h | h
      · rw [min_eq_left h, pow_one]; linarith
      · rw [min_eq_right h, pow_one]; linarith
    linarith
  | succ n ih =>
    intro lo hi best hlo hlh hloT hThi hbf hbd hberr
    have hmidpos : 0 < (lo + hi) / 2 := by linarith
    have hmlo : lo ≤ (lo + hi) / 2 := by linarith
    have hmhi : (lo + hi) / 2 ≤ hi := by linarith
    rw [bisectLoop]
    simp only [hev ((lo + hi) / 2) hmidpos]
    by_cases hdeg : T ≤ c * lo
    · have herr0 : |best.dist - T| = 0 := by
        have h1 := min_le_left (T - c * lo) (c * hi - T)
        have h2 := abs_nonneg (best.dist - T)
        linarith
      have hcond : ¬|c * ((lo + hi) / 2) - T| < |best.dist - T| := by
        intro h
        have := abs_nonneg (c * ((lo + hi) / 2) - T)
        linarith
      rw [if_neg hcond]
      have htol : |best.dist - T| ≤ max 10 (T * (5/1000)) := by
        rw [herr0]; exact le_max_of_le_left (by norm_num)
      rw [if_pos htol]
      exact ⟨best, rfl, hbf, hbd, Or.inr htol⟩
    · have hlt : c * lo < T := not_le.1 hdeg
      set B := (if |c * ((lo + hi) / 2) - T| < |best.dist - T| then
          (⟨(lo + hi) / 2, c * ((lo + hi) / 2),
            scalePointsAround b center ((lo + hi) / 2)⟩ : BestSt)
        else best) with hB
      have hBf : 0 < B.f := by
        rw [hB]; by_cases hq : |c * ((lo + hi) / 2) - T| < |best.dist - T|
        · rw [if_pos hq]; exact hmidpos
        · rw [if_neg hq]; exact hbf
      have hBd : B.dist = c * B.f := by
        rw [hB]; by_cases hq : |c * ((lo + hi) / 2) - T| < |best.dist - T|
        · rw [if_pos hq]
        · rw [if_neg hq]; exact hbd
      have hBerr1 : |B.dist - T| ≤ |best.dist - T| := by
        rw [hB]; by_cases hq : |c * ((lo + hi) / 2) - T| < |best.dist - T|
        · rw [if_pos hq]; exact le_of_lt hq
        · rw [if_neg hq]
      have hBerr2 : |B.dist - T| ≤ |c * ((lo + hi) / 2) - T| := by
        rw [hB]; by_cases hq : |c * ((lo + hi) / 2) - T| < |best.dist - T|
        · rw [if_pos hq]
        · rw [if_neg hq]; exact not_lt.1 hq
      by_cases hmb : c * ((lo + hi) / 2) < T
      · have hbc : ¬(decide (c * lo < T) ≠ decide (c * ((lo + hi) / 2) < T)) := by
          simp [hlt, hmb]
        rw [if_neg hbc]
        by_cases htol : |B.dist - T| ≤ max 10 (T * (5/1000))
        · rw [if_pos htol]
          exact ⟨B, rfl, hBf, hBd, Or.inr htol⟩
        · rw [if_neg htol]
          have hinv : |B.dist - T| ≤ min (T - c * ((lo + hi) / 2)) (c * hi - T) := by
            refine le_min ?_ ?_
            · rw [abs_of_neg (show c * ((lo + hi) / 2) - T < 0 by linarith)] at hBerr2
              linarith
            · have := min_le_right (T - c * lo) (c * hi - T)
              linarith
          obtain ⟨r, hrec, hr1, hr2, hr3⟩ :=
            ih ((lo + hi) / 2) hi B hmidpos hmhi (le_of_lt hmb) hThi hBf hBd hinv
          refine ⟨r, hrec, hr1, hr2, ?_⟩
          rcases hr3 with h | h
          · left
            have heq : c * (hi - (lo + hi) / 2) / 2 ^ (n + 1) =
                c * (hi - lo) / 2 ^ (n + 1 + 1) := by
              rw [pow_succ]; ring
            rw [heq] at h
            exact h
          · exact Or.inr h
      · have hbc : decide (c * lo < T) ≠ decide (c * ((lo + hi) / 2) < T) := by
          simp [hlt, hmb]
        rw [if_pos hbc]
        by_cases htol : |B.dist - T| ≤ max 10 (T * (5/1000))
        · rw [if_pos htol]
          exact ⟨B, rfl, hBf, hBd, Or.inr htol⟩
        · rw [if_neg htol]
          have hinv : |B.dist - T| ≤ min (T - c * lo) (c * ((lo + hi) / 2) - T) := by
            refine le_min ?_ ?_
            · have := min_le_left (T - c * lo) (c * hi - T)
              linarith
            · rw [abs_of_nonneg (show (0:ℚ) ≤ c * ((lo + hi) / 2) - T by
                have := not_lt.1 hmb; linarith)] at hBerr2
              linarith
          obtain ⟨r, hrec, hr1, hr2, hr3⟩ :=
            ih lo ((lo + hi) / 2) B hlo hmlo hloT (not_lt.1 hmb) hBf hBd hinv
          refine ⟨r, hrec, hr1, hr2, ?_⟩
          rcases hr3 with h | h
          · left
            have heq : c * ((lo + hi) / 2 - lo) / 2 ^ (n + 1) =
                c * (hi - lo) / 2 ^ (n + 1 + 1) := by
              rw [pow_succ]; ring
            rw [heq] at h
            exact h
          · exact Or.inr h

end MapComponent

namespace MapComponent

theorem widenLoop3_of_bracketed (resolve : Resolve) (b : List LatLng) (center : LatLng)
    (target lo hi : ℚ) (loE hiE : ℚ × List LatLng)
    (h : bracketed loE.1 hiE.1 target) :
    widenLoop resolve b center target 3 lo hi loE hiE = .ok (lo, hi, loE, hiE) := by
  rw [show (3:ℕ) = 2 + 1 from rfl, widenLoop, if_pos h]

end MapComponent

/-- C1 (amended): for every base point list, center and target, when the
route resolver is a mock black box that answers the base shape with
distance `c` and every scaled shape with distance `c × factor` (i.e.
`k × scaleFactor × baseDistance` with `k × baseDistance = c`), and the
ideal factor `T / c` lies inside the search's clamp range [0.2, 5] (with
`c, T ≥ 1`), then `findScaleForTargetDistance` returns a result whose
distance is linear in its factor and within the stated tolerance
`max(10, 0.005 × T)` of the target — equivalently the factor is within
`max(10, 0.005 × T) / c` of the ideal `T / c`. Without the clamp-range
hypothesis the original claim is false (`C1_counterexample`): the clamps
at 0.2 and 5 make targets outside the reachable band unattainable. -/
theorem C1_amended_convergence (resolve : MapComponent.Resolve) (b : List LatLng)
    (center : LatLng) (c T : ℚ) (r0 : GoogleMapsRouting.RouteResult)
    (hc : 1 ≤ c) (hT : 1 ≤ T) (hlo : 1/5 ≤ T / c) (hhi : T / c ≤ 5)
    (hbase : resolve b = .ok (some r0)) (hr0 : r0.distance = c)
    (hmock : ∀ f : ℚ, 0 < f →
      ∃ res, resolve (MapComponent.scalePointsAround b center f) = .ok (some res) ∧
        res.distance = c * f) :
    ∃ r, MapComponent.findScaleForTargetDistance resolve b center T = some r ∧
      r.finalDistance = c * r.factor ∧
      |r.finalDistance - T| ≤ max 10 (T * (5/1000)) ∧
      |r.factor - T / c| ≤ max 10 (T * (5/1000)) / c := by
  have hc0 : (0:ℚ) < c := by linarith
  have hT0 : (0:ℚ) < T := by linarith
  have hphi : (0:ℚ) < T / c := by positivity
  have hcphi : c * (T / c) = T := by field_simp
  have hev : ∀ f : ℚ, 0 < f →
      MapComponent.evalDist resolve b center f =
        .ok (c * f, MapComponent.scalePointsAround b center f) := by
    intro f hf
    obtain ⟨res, h1, h2⟩ := hmock f hf
    simp only [MapComponent.evalDist, h1, MapComponent.distOr0, h2]
  rw [MapComponent.findScaleForTargetDistance, hbase]
  simp only [MapComponent.distOr0]
  rw [hr0, max_eq_right hc, max_eq_right hT, max_eq_right hlo, min_eq_right hhi]
  set lo0 := max (1/5) (T / c * (1/2)) with hlo0def
  set hi0 := min 5 (T / c * (3/2)) with hhi0def
  have hlo0pos : (0:ℚ) < lo0 := lt_of_lt_of_le (by norm_num) (le_max_left _ _)
  have hlo0phi : lo0 ≤ T / c := max_le hlo (by linarith)
  have hphihi0 : T / c ≤ hi0 := le_min hhi (by linarith)
  have h1 : c * lo0 ≤ T := by
    have := mul_le_mul_of_nonneg_left hlo0phi (le_of_lt hc0)
    linarith
  have h2 : T ≤ c * hi0 := by
    have := mul_le_mul_of_nonneg_left hphihi0 (le_of_lt hc0)
    linarith
  simp only [hev lo0 hlo0pos, hev hi0 (lt_of_lt_of_le hphi hphihi0)]
  rw [MapComponent.fitFromBracket,
    MapComponent.widenLoop3_of_bracketed resolve b center T lo0 hi0 _ _
      (Or.inl ⟨h1, h2⟩)]
  simp only
  have hbestInv :
      ∀ best : MapComponent.BestSt,
        best = (if |c * lo0 - T| ≤ |c * hi0 - T| then
            (⟨lo0, c * lo0, MapComponent.scalePointsAround b center lo0⟩ :
              MapComponent.BestSt)
          else ⟨hi0, c * hi0, MapComponent.scalePointsAround b center hi0⟩) →
        0 < best.f ∧ best.dist = c * best.f ∧
        |best.dist - T| ≤ min (T - c * lo0) (c * hi0 - T) := by
    intro best hdef
    by_cases hcmp : |c * lo0 - T| ≤ |c * hi0 - T|
    · rw [hdef, if_pos hcmp]
      dsimp only
      refine ⟨hlo0pos, rfl, le_min ?_ ?_⟩
      · rw [abs_of_nonpos (by linarith)]; linarith
      · rw [abs_of_nonpos (by linarith)] at hcmp ⊢
        rw [abs_of_nonneg (by linarith)] at hcmp
        linarith
    · rw [hdef, if_neg hcmp]
      dsimp only
      refine ⟨lt_of_lt_of_le hphi hphihi0, rfl, le_min ?_ ?_⟩
      · have hltc := not_le.1 hcmp
        rw [abs_of_nonneg (by linarith)] at hltc
        rw [abs_of_nonpos (by linarith)] at hltc
        rw [abs_of_nonneg (by linarith)]
        linarith
      · rw [abs_of_nonneg (by linarith)]
  obtain ⟨hB1, hB2, hB3⟩ := hbestInv _ rfl
  have hlolehi : lo0 ≤ hi0 := le_trans hlo0phi hphihi0
  obtain ⟨r, hrr, hr1, hr2, hr3⟩ :=
    MapComponent.bisectLoop_converges resolve b center c T hc0 hev 7 lo0 hi0 _
      hlo0pos hlolehi h1 h2 hB1 hB2 hB3
  simp only [hrr]
  have htol : |r.dist - T| ≤ max 10 (T * (5/1000)) := by
    rcases hr3 with h | h
    · refine le_trans h (le_max_of_le_right ?_)
      have hspan : hi0 - lo0 ≤ T / c := by
        have ha : hi0 ≤ T / c * (3/2) := min_le_right _ _
        have hb : T / c * (1/2) ≤ lo0 := le_max_right _ _
        linarith
      have hspan2 : c * (hi0 - lo0) ≤ T := by
        have := mul_le_mul_of_nonneg_left hspan (le_of_lt hc0)
        linarith
      have h256 : (2:ℚ) ^ (7 + 1) = 256 := by norm_num
      rw [h256] at *
      linarith
    · exact h
  refine ⟨⟨r.f, r.scaled, r.dist⟩, rfl, hr2, htol, ?_⟩
  have hfac : r.f - T / c = (c * r.f - T) / c := by
    rw [sub_div, mul_comm, mul_div_cancel_right₀ _ (ne_of_gt hc0)]
  rw [show (⟨r.f, r.scaled, r.dist⟩ : MapComponent.FitResult).factor = r.f from rfl,
    hfac, abs_div, abs_of_pos hc0]
  rw [← hr2]
  exact (div_le_div_right hc0).2 htol

/-- Scaling a two-point shape based at the origin about the origin scales
its single offset coordinate (the re-closing branch does not apply to
2-point shapes). -/
theorem scalePointsAround_pair (a f : ℚ) :
    MapComponent.scalePointsAround [⟨0, 0⟩, ⟨0, a⟩] ⟨0, 0⟩ f = [⟨0, 0⟩, ⟨0, a * f⟩] := by
  simp only [MapComponent.scalePointsAround, List.map]
  rw [if_neg (by simp)]
  simp only [LatLng.mk.injEq, List.cons.injEq]
  norm_num

/-- The surrogate straight-line length of the two-point shape from the
origin to `(0, y)` with `y ≥ 0`. -/
theorem pairwiseDistSum_pair00 (y : ℚ) (hy : 0 ≤ y) :
    GoogleMapsRouting.pairwiseDistSum dFlat [⟨0, 0⟩, ⟨0, y⟩] = 100000 * y := by
  rw [GoogleMapsRouting.pairwiseDistSum, GoogleMapsRouting.pairwiseDistSum, dFlat]
  dsimp only
  rw [show |(0:ℚ) - 0| = 0 by norm_num,
    show |(0:ℚ) - y| = y by rw [zero_sub, abs_neg, abs_of_nonneg hy]]
  ring

/-- A mock black-box route resolver whose routed distance is the exact
straight-line (`dFlat`) length of the shape it is given — linear under
scaling, as demanded by the C1 mock hypothesis. -/
def mockLinearResolve : MapComponent.Resolve := fun pts =>
  .ok (some ⟨GoogleMapsRouting.pairwiseDistSum dFlat pts, 0, pts⟩)

theorem mockLinearResolve_evalDist (a : ℚ) (ha : 0 ≤ a) (f : ℚ) (hf : 0 ≤ f) :
    MapComponent.evalDist mockLinearResolve [⟨0, 0⟩, ⟨0, a⟩] ⟨0, 0⟩ f =
      .ok (100000 * a * f, [⟨0, 0⟩, ⟨0, a * f⟩]) := by
  simp only [MapComponent.evalDist, mockLinearResolve, MapComponent.distOr0]
  rw [scalePointsAround_pair, pairwiseDistSum_pair00 (a * f) (mul_nonneg ha hf),
    ← mul_assoc]

theorem mockLinearResolve_mock (a : ℚ) (ha : 0 ≤ a) (f : ℚ) (hf : 0 < f) :
    ∃ res, mockLinearResolve (MapComponent.scalePointsAround [⟨0, 0⟩, ⟨0, a⟩] ⟨0, 0⟩ f) =
        .ok (some res) ∧ res.distance = 100000 * a * f := by
  refine ⟨⟨GoogleMapsRouting.pairwiseDistSum dFlat
      (MapComponent.scalePointsAround [⟨0, 0⟩, ⟨0, a⟩] ⟨0, 0⟩ f), 0,
      MapComponent.scalePointsAround [⟨0, 0⟩, ⟨0, a⟩] ⟨0, 0⟩ f⟩, rfl, ?_⟩
  dsimp only
  rw [scalePointsAround_pair, pairwiseDistSum_pair00 (a * f) (mul_nonneg ha (le_of_lt hf)),
    ← mul_assoc]

/-- Counterexample to C1 as stated: with the mock linear resolver over the
base shape [(0,0), (0, 1e-5)] (mock base distance `k × baseDistance = 1`)
and target 1 000 000 m, the ideal factor `target / (k × baseDistance)` is
1 000 000, far outside the search's hard clamp range [0.2, 5]; the search
still returns a result, but its factor is at most 5, so it misses the
ideal factor by far more than the stated tolerance `max(10, 0.5% of
target) = 5000` — and its distance misses the target equally badly. -/
theorem C1_counterexample :
    GoogleMapsRouting.pairwiseDistSum dFlat [⟨0, 0⟩, ⟨0, 1/100000⟩] = 1 ∧
    ∃ r, MapComponent.findScaleForTargetDistance mockLinearResolve
        [⟨0, 0⟩, ⟨0, 1/100000⟩] ⟨0, 0⟩ 1000000 = some r ∧
      r.factor ≤ 5 ∧
      r.finalDistance = 1 * r.factor ∧
      ¬|r.factor - 1000000 / 1| ≤ max 10 (1000000 * (5/1000)) ∧
      ¬|r.finalDistance - 1000000| ≤ max 10 (1000000 * (5/1000)) := by
  refine ⟨by rw [pairwiseDistSum_pair00 (1/100000) (by norm_num)]; norm_num, ?_⟩
  obtain ⟨r, hfind, h15, h5, heval, hscale⟩ :=
    MapComponent.findScale_total_spec mockLinearResolve [⟨0, 0⟩, ⟨0, 1/100000⟩] ⟨0, 0⟩
      1000000
      (fun pts => ⟨some ⟨GoogleMapsRouting.pairwiseDistSum dFlat pts, 0, pts⟩, rfl⟩)
  have hev := mockLinearResolve_evalDist (1/100000) (by norm_num) r.factor
    (by linarith)
  rw [heval] at hev
  have hfd : r.finalDistance = 100000 * (1/100000) * r.factor :=
    congrArg Prod.fst (Except.ok.inj hev)
  have hfd1 : r.finalDistance = 1 * r.factor := by rw [hfd]; norm_num
  have htolv : max (10:ℚ) (1000000 * (5/1000)) = 5000 := by norm_num
  refine ⟨r, hfind, h5, hfd1, ?_, ?_⟩
  · rw [htolv, show (1000000:ℚ) / 1 = 1000000 by norm_num,
      abs_of_nonpos (by linarith)]
    intro hcon
    linarith
  · rw [htolv, hfd1, abs_of_nonpos (by linarith)]
    intro hcon
    linarith

theorem C1_witness :
    ∃ r, MapComponent.findScaleForTargetDistance mockLinearResolve
        [⟨0, 0⟩, ⟨0, 1/1000⟩] ⟨0, 0⟩ 250 = some r ∧
      r.finalDistance = 100 * r.factor ∧
      |r.finalDistance - 250| ≤ max 10 (250 * (5/1000)) ∧
      |r.factor - 250 / 100| ≤ max 10 (250 * (5/1000)) / 100 :=
  C1_amended_convergence mockLinearResolve [⟨0, 0⟩, ⟨0, 1/1000⟩] ⟨0, 0⟩ 100 250
    ⟨GoogleMapsRouting.pairwiseDistSum dFlat [⟨0, 0⟩, ⟨0, 1/1000⟩], 0,
      [⟨0, 0⟩, ⟨0, 1/1000⟩]⟩
    (by norm_num) (by norm_num) (by norm_num) (by norm_num) rfl
    (by dsimp only; rw [pairwiseDistSum_pair00 (1/1000) (by norm_num)]; norm_num)
    (fun f hf => by
      obtain ⟨res, hh1, hh2⟩ := mockLinearResolve_mock (1/1000) (by norm_num) f hf
      exact ⟨res, hh1, by rw [hh2]; norm_num⟩)

/-- The route resolver of the fitting search when the directions provider
is unreachable: `getShapeRoute` with no provider, which always resolves
(straight-line fallback) and never rejects (map component, 865/876 with
`googleMapsRouting.ts` 195–218). -/
def noneResolver (d : DistFn) : MapComponent.Resolve := fun pts =>
  .ok (GoogleMapsRouting.getShapeRoute none d pts).1

/-- With no provider, a 2-point shape resolves to its single straight
segment (dedupe keeps both points of a 2-point list unconditionally, and a
2-point shape is never auto-closed). -/
theorem getShapeRoute_none_pair (d : DistFn) (a b : LatLng) :
    GoogleMapsRouting.getShapeRoute none d [a, b] =
      (some ⟨d a b + 0, (d a b + 0) / 1.4, [a, b]⟩, []) := by
  rw [GoogleMapsRouting.getShapeRoute_none_eq d [a, b] (by simp)]
  have hdd : GoogleMapsRouting.dedupeSequentialPoints d [a, b] 8 = [a, b] := rfl
  rw [hdd]
  have hac : GoogleMapsRouting.autoClosed d [a, b] = [a, b] := by
    rw [GoogleMapsRouting.autoClosed, if_neg]
    intro hcon
    simp [GoogleMapsRouting.isClosedShape] at hcon
  rw [hac]
  rw [show GoogleMapsRouting.pairwiseDistSum d [a, b] = d a b + 0 by
    rw [GoogleMapsRouting.pairwiseDistSum, GoogleMapsRouting.pairwiseDistSum]]

/-- C3 (amended): for every base point list, center and target, when the
directions provider is unreachable at every evaluation (`getShapeRoute`
degrades to its straight-line fallback but still resolves), the
distance-fitting search never returns null and never propagates an
exception — but it does NOT return the base (unscaled) points: it returns
the best-seen SCALED points, `scalePointsAround` of the base at the
returned factor (which the clamps keep in [0.2, 5]), with the returned
distance the fallback-computed distance of exactly that scaled shape (see
`C3_counterexample` for a run whose returned points differ from the base
points). -/
theorem C3_amended_unreachable_provider (d : DistFn) (basePoints : List LatLng)
    (center : LatLng) (T : ℚ) :
    ∃ r, MapComponent.findScaleForTargetDistance (noneResolver d) basePoints center T =
        some r ∧
      1/5 ≤ r.factor ∧ r.factor ≤ 5 ∧
      r.scaledPoints = MapComponent.scalePointsAround basePoints center r.factor ∧
      MapComponent.evalDist (noneResolver d) basePoints center r.factor =
        .ok (r.finalDistance, r.scaledPoints) := by
  obtain ⟨r, h1, h2, h3, h4, h5⟩ :=
    MapComponent.findScale_total_spec (noneResolver d) basePoints center T
      (fun pts => ⟨(GoogleMapsRouting.getShapeRoute none d pts).1, rfl⟩)
  exact ⟨r, h1, h2, h3, h5, h4⟩

/-- Provider-unavailable evaluation of a scaled 2-point shape based at the
origin: the straight-line fallback distance is linear in the factor. -/
theorem noneResolver_evalDist_pair (f : ℚ) (hf : 0 ≤ f) :
    MapComponent.evalDist (noneResolver dFlat) [⟨0, 0⟩, ⟨0, 1/1000⟩] ⟨0, 0⟩ f =
      .ok (100 * f, [⟨0, 0⟩, ⟨0, (1/1000) * f⟩]) := by
  simp only [MapComponent.evalDist, noneResolver]
  rw [scalePointsAround_pair, getShapeRoute_none_pair]
  simp only [MapComponent.distOr0]
  have hd : dFlat ⟨0, 0⟩ ⟨0, (1/1000) * f⟩ = 100 * f := by
    rw [dFlat]
    dsimp only
    rw [show |(0:ℚ) - 0| = 0 by norm_num,
      show |(0:ℚ) - (1/1000) * f| = (1/1000) * f by
        rw [zero_sub, abs_neg, abs_of_nonneg (by positivity)]]
    ring
  rw [hd, add_zero]

/-- Counterexample to C3 as stated: with the provider unreachable, the
search over the base shape [(0,0), (0, 0.001)] (fallback base distance
100 m) and target 200 m completes normally and returns the points SCALED
by the found factor 2 — [(0,0), (0, 0.002)] — not the base (unscaled)
points: the straight-line fallback makes every evaluation succeed, so the
search optimizes as usual instead of degrading to the base shape. -/
theorem C3_counterexample :
    MapComponent.findScaleForTargetDistance (noneResolver dFlat)
        [⟨0, 0⟩, ⟨0, 1/1000⟩] ⟨0, 0⟩ 200 =
      some ⟨2, [⟨0, 0⟩, ⟨0, 1/500⟩], 200⟩ ∧
    ([⟨0, 0⟩, ⟨0, 1/500⟩] : List LatLng) ≠ [⟨0, 0⟩, ⟨0, 1/1000⟩] := by
  constructor
  · have hd1 : dFlat ⟨0, 0⟩ ⟨0, (1:ℚ)/1000⟩ = 100 := by
      rw [dFlat]
      dsimp only
      rw [show |(0:ℚ) - 0| = 0 by norm_num,
        show |(0:ℚ) - 1/1000| = 1/1000 by
          rw [zero_sub, abs_neg, abs_of_nonneg (by norm_num)]]
      norm_num
    simp only [MapComponent.findScaleForTargetDistance, noneResolver,
      getShapeRoute_none_pair, MapComponent.distOr0, hd1]
    norm_num [max_def, min_def]
    simp only [noneResolver_evalDist_pair 1 (by norm_num),
      noneResolver_evalDist_pair 3 (by norm_num)]
    rw [MapComponent.fitFromBracket,
      MapComponent.widenLoop3_of_bracketed (noneResolver dFlat)
        [⟨0, 0⟩, ⟨0, 1/1000⟩] ⟨0, 0⟩ 200 1 3
        (100 * 1, [⟨0, 0⟩, ⟨0, (1/1000) * 1⟩])
        (100 * 3, [⟨0, 0⟩, ⟨0, (1/1000) * 3⟩])
        (Or.inl ⟨by norm_num, by norm_num⟩)]
    simp only
    rw [if_pos (show |(100 * 1 : ℚ) - 200| ≤ |(100 * 3 : ℚ) - 200| by norm_num)]
    have hmid : MapComponent.evalDist (noneResolver dFlat) [⟨0, 0⟩, ⟨0, 1/1000⟩]
        ⟨0, 0⟩ (((1:ℚ) + 3) / 2) = .ok (100 * 2, [⟨0, 0⟩, ⟨0, (1/1000) * 2⟩]) := by
      rw [show ((1:ℚ) + 3) / 2 = 2 by norm_num]
      exact noneResolver_evalDist_pair 2 (by norm_num)
    rw [show (7:ℕ) = 6 + 1 from rfl]
    rw [MapComponent.bisectLoop]
    simp only [hmid]
    rw [if_pos (show |(100 * 2 : ℚ) - 200| < |(100 * 1 : ℚ) - 200| by norm_num)]
    rw [if_pos (show |(100 * 2 : ℚ) - 200| ≤ max 10 (200 * (5/1000)) by norm_num)]
    norm_num
  · simp only [ne_eq, List.cons.injEq, LatLng.mk.injEq]
    norm_num
